import Mathlib

/-!
Verification development for the tickets repository
(apps/tickets API routes and the bulk issuance script).

The relational store is embedded shallowly: tables are lists of rows, SQL
statements become pure functions on a `DB` value, and each HTTP handler
becomes a function from its parsed inputs (plus oracles for external
effects such as SMTP and QR generation) to a response value and the
resulting store.
-/

namespace Tickets

/-- A row of the `tickets` table.  `id` is the opaque token (a UUID
string in the real store).  Timestamps are modelled as `Nat`.
Column names follow the schema used by the route SQL
(`used_by_scanner_key_id` is the spec's `used_by_key_id`). -/
structure TicketRow where
  id : String
  email : String
  name : Option String
  ticketTypeId : Nat
  used : Bool
  usedAt : Option Nat
  usedByScannerKeyId : Option Nat
  issuedAt : Nat
  deriving Repr, DecidableEq

/-- A row of the `ticket_types` table (only the columns the routes use). -/
structure TicketTypeRow where
  id : Nat
  eventId : Nat
  deriving Repr, DecidableEq

/-- The store: `tickets`, `ticket_types`, and the `events` table
(modelled by its ids only; `loadTicketRow` inner-joins on it). -/
structure DB where
  tickets : List TicketRow
  ticketTypes : List TicketTypeRow
  events : List Nat
  deriving Repr, DecidableEq

/-- The join condition `t.ticket_type_id = tt.id and tt.event_id = $2`
used by both the conditional update and the enrichment read. -/
def typeInEvent (db : DB) (ticketTypeId scannerEventId : Nat) : Bool :=
  db.ticketTypes.any fun tt => tt.id == ticketTypeId && tt.eventId == scannerEventId

/-- Row predicate of the conditional update in POST /api/tickets/validate:
`t.id = $1 and t.used = false and t.ticket_type_id = tt.id and tt.event_id = $2`. -/
def condUpdateMatches (db : DB) (ticketId : String) (scannerEventId : Nat)
    (t : TicketRow) : Bool :=
  t.id == ticketId && t.used == false && typeInEvent db t.ticketTypeId scannerEventId

/-- The atomic conditional update of POST /api/tickets/validate:
`update tickets set used = true, used_at = now(), used_by_scanner_key_id = $3
 where t.id = $1 and t.used = false and ... tt.event_id = $2 returning t.id`.
Returns the new store and the affected row count. -/
def condUpdate (db : DB) (ticketId : String) (scannerEventId scannerKeyId now : Nat) :
    DB × Nat :=
  let rowCount := (db.tickets.filter (condUpdateMatches db ticketId scannerEventId)).length
  let tickets := db.tickets.map fun t =>
    if condUpdateMatches db ticketId scannerEventId t then
      { t with used := true, usedAt := some now, usedByScannerKeyId := some scannerKeyId }
    else t
  ({ db with tickets := tickets }, rowCount)

/-- The enrichment read `loadTicketRow` of POST /api/tickets/validate:
a select over `tickets` joined with `ticket_types` (on the key's event)
and `events`; returns the first matching row or `none`.  It is a pure
function of the store: by construction it mutates nothing. -/
def loadTicketRow (db : DB) (ticketId : String) (scannerEventId : Nat) :
    Option TicketRow :=
  db.tickets.find? fun t =>
    t.id == ticketId && typeInEvent db t.ticketTypeId scannerEventId &&
      db.events.any fun e => db.ticketTypes.any fun tt =>
        tt.id == t.ticketTypeId && tt.eventId == e && e == scannerEventId

/-- Redemption outcome, as in the route's JSON responses. -/
inductive RedeemStatus where
  | valid (ticket : Option TicketRow)
  | alreadyUsed (ticket : TicketRow)
  | notFound
  deriving Repr, DecidableEq

/-- POST /api/tickets/validate after authorization resolved the scanner
key to `(scannerEventId, scannerKeyId)`: run the atomic conditional
update; on row count 1 answer VALID (with the enrichment read as
payload); otherwise re-read the ticket scoped to the same event to
distinguish NOT_FOUND from ALREADY_USED. -/
def redeem (db : DB) (ticketId : String) (scannerEventId scannerKeyId now : Nat) :
    RedeemStatus × DB :=
  let res := condUpdate db ticketId scannerEventId scannerKeyId now
  if res.2 == 1 then
    (RedeemStatus.valid (loadTicketRow res.1 ticketId scannerEventId), res.1)
  else
    match loadTicketRow res.1 ticketId scannerEventId with
    | none => (RedeemStatus.notFound, res.1)
    | some t => (RedeemStatus.alreadyUsed t, res.1)

/-- A parsed JSON value as the handlers see request-body fields
(`undef` stands for an absent field, `obj` for any other object). -/
inductive JsValue where
  | undef
  | null
  | bool (b : Bool)
  | num (n : Int)
  | str (s : String)
  | arr (l : List JsValue)
  | obj
  deriving Repr

/-- JS `String.prototype.trim`: strip whitespace from both ends
(expressed over the character list so that it evaluates by kernel
reduction). -/
def jsTrim (s : String) : String :=
  String.mk (((s.data.dropWhile Char.isWhitespace).reverse.dropWhile Char.isWhitespace).reverse)

/-- JS `String.prototype.toLowerCase`, character-wise (`Char.toLower`
covers the ASCII range all evaluated inputs use). -/
def jsToLower (s : String) : String :=
  String.mk (s.data.map Char.toLower)

/-- The id-gathering prelude of `normalizeTicketIds`: a single string is
kept, an array keeps its string elements, anything else yields nothing. -/
def gatherTicketIds : JsValue → List String
  | .str s => [s]
  | .arr l => l.filterMap fun v =>
      match v with
      | .str s => some s
      | _ => none
  | _ => []

/-- Hexadecimal digit, case-insensitive (`[0-9a-f]` under the `i` flag). -/
def isHexChar (c : Char) : Bool :=
  c.isDigit || ('a' ≤ c && c ≤ 'f') || ('A' ≤ c && c ≤ 'F')

/-- The version nibble class `[1-8]` of the canonical token regex. -/
def isVersionChar (c : Char) : Bool :=
  '1' ≤ c && c ≤ '8'

/-- The variant nibble class `[89ab]` (case-insensitive). -/
def isVariantChar (c : Char) : Bool :=
  c == '8' || c == '9' || c == 'a' || c == 'b' || c == 'A' || c == 'B'

/-- Split a character list at every hyphen (the semantics of
`splitOn "-"`). -/
def splitHyphenAux (acc : List Char) : List Char → List (List Char)
  | [] => [acc.reverse]
  | c :: rest =>
    if c == '-' then acc.reverse :: splitHyphenAux [] rest
    else splitHyphenAux (c :: acc) rest

/-- Full-string match of the canonical token shape
`^[0-9a-f]{8}-[0-9a-f]{4}-[1-8][0-9a-f]{3}-[89ab][0-9a-f]{3}-[0-9a-f]{12}$`
(case-insensitive), decomposed along the four hyphens. -/
def isCanonicalUuid (s : String) : Bool :=
  match (splitHyphenAux [] s.data).map String.mk with
  | [a, b, c, d, e] =>
    a.length == 8 && a.toList.all isHexChar &&
    b.length == 4 && b.toList.all isHexChar &&
    c.length == 4 && (match c.toList with
      | v :: rest => isVersionChar v && rest.all isHexChar
      | [] => false) &&
    d.length == 4 && (match d.toList with
      | v :: rest => isVariantChar v && rest.all isHexChar
      | [] => false) &&
    e.length == 12 && e.toList.all isHexChar
  | _ => false

/-- First-occurrence deduplication, the order `Array.from(new Set(ids))`
produces. -/
def dedupeAux (seen : List String) : List String → List String
  | [] => []
  | s :: rest =>
    if seen.contains s then dedupeAux seen rest
    else s :: dedupeAux (s :: seen) rest

/-- See `dedupeAux`. -/
def dedupeKeepFirst (l : List String) : List String :=
  dedupeAux [] l

/-- `normalizeTicketIds` of POST /api/admin/tickets/burn: gather string
entries, trim each, keep only canonical tokens, and collapse duplicates
keeping first occurrences. -/
def normalizeTicketIds (input : JsValue) : List String :=
  dedupeKeepFirst (((gatherTicketIds input).map jsTrim).filter isCanonicalUuid)

/-- The burn update statement: `update tickets set used = true,
used_at = now(), used_by_scanner_key_id = null where id = any($1)`,
returning the new store and the affected row count. -/
def burnUpdate (db : DB) (ids : List String) (now : Nat) : DB × Nat :=
  let rowCount := (db.tickets.filter fun t => ids.contains t.id).length
  let tickets := db.tickets.map fun t =>
    if ids.contains t.id then
      { t with used := true, usedAt := some now, usedByScannerKeyId := none }
    else t
  ({ db with tickets := tickets }, rowCount)

/-- Response of POST /api/admin/tickets/burn (after admin auth). -/
inductive BurnResponse where
  | badRequest
  | okBurned (burned : Nat)
  deriving Repr, DecidableEq

/-- The `ticketIds ?? ticketId` nullish coalescing of the burn route. -/
def burnInput (ticketId ticketIds : JsValue) : JsValue :=
  match ticketIds with
  | .undef => ticketId
  | .null => ticketId
  | v => v

/-- POST /api/admin/tickets/burn after admin auth: normalize
`ticketIds ?? ticketId`, reject an empty id set with 400, otherwise run
the burn update and answer `{ok:true, burned: rowCount}`. -/
def burnHandler (db : DB) (ticketId ticketIds : JsValue) (now : Nat) :
    BurnResponse × DB :=
  let ids := normalizeTicketIds (burnInput ticketId ticketIds)
  if ids.isEmpty then (BurnResponse.badRequest, db)
  else
    let r := burnUpdate db ids now
    (BurnResponse.okBurned r.2, r.1)

/-- The insert of POST /api/tickets/issue:
`insert into tickets (ticket_type_id, email, name) values ($1,$2,$3)
returning id, issued_at`.  The generated id is passed in as `newId`;
`used`, `used_at`, `used_by_scanner_key_id` and `issued_at` take the
store defaults (false, null, null, creation time: schema tooling is
external; the spec's data model fixes these start values). -/
def issueInsert (db : DB) (ticketTypeId : Nat) (email : String)
    (name : Option String) (newId : String) (now : Nat) : DB × TicketRow :=
  let t : TicketRow :=
    { id := newId, email := email, name := name, ticketTypeId := ticketTypeId,
      used := false, usedAt := none, usedByScannerKeyId := none, issuedAt := now }
  ({ db with tickets := db.tickets ++ [t] }, t)

/-- `toBooleanOrUndefined` of the issue route: null/undefined stay
undefined, booleans pass through, a number is compared with 0, a string
is trimmed/lowercased and matched against fixed yes/no token lists,
anything else is undefined. -/
def toBooleanOrUndefined : JsValue → Option Bool
  | .undef => none
  | .null => none
  | .bool b => some b
  | .num n => some (n != 0)
  | .str v =>
    let s := jsToLower (jsTrim v)
    if s == "" then none
    else if ["1", "true", "yes", "y", "on"].contains s then some true
    else if ["0", "false", "no", "n", "off"].contains s then some false
    else none
  | .arr _ => none
  | .obj => none

/-- The structured email sub-result the issue route places in its
response (`{ok, id?, error?, skipped?}`). -/
structure EmailSubResult where
  ok : Bool
  id : Option String := none
  error : Option String := none
  skipped : Bool := false
  deriving Repr, DecidableEq

/-- Response of POST /api/tickets/issue (after auth and the
required-field check). -/
inductive IssueResponse where
  | badRequest (error : String)
  | serverError (error : String)
  | success (ticketId : String) (ticketUrl : String) (issuedAt : Nat)
      (emailSub : EmailSubResult)
  deriving Repr, DecidableEq

/-- Outcome of one run of the issue handler: the HTTP response, the
resulting store, whether QR generation was invoked, whether an SMTP
send was invoked, and whether that send carried the PNG attachment. -/
structure IssueRunResult where
  response : IssueResponse
  db : DB
  qrAttempted : Bool
  mailSent : Bool
  mailAttachment : Bool
  deriving Repr, DecidableEq

/-- The notification step of POST /api/tickets/issue, reached after the
insert (and after QR generation when requested): honour `skipEmail`,
report a missing/invalid SMTP transport as a skipped failure, otherwise
send (attaching the PNG exactly when it was requested and produced) and
fold the send outcome into the structured sub-result.  Every branch
answers `ok:true` with the created ticket's data. -/
def issueEmailPhase (db1 : DB) (newId ticketUrl : String) (issuedAt : Nat)
    (shouldAttachQr : Bool) (qrPngBase64 : Option String) (skipEmail : JsValue)
    (transport : Except String Unit) (sendMail : Except String String)
    (qrAttempted : Bool) : IssueRunResult :=
  let skipEmailParsed := (toBooleanOrUndefined skipEmail).getD false
  if skipEmailParsed then
    { response := .success newId ticketUrl issuedAt
        { ok := false, error := some "Skipped", skipped := true },
      db := db1, qrAttempted := qrAttempted, mailSent := false, mailAttachment := false }
  else
    match transport with
    | .error err =>
      { response := .success newId ticketUrl issuedAt
          { ok := false, error := some err, skipped := true },
        db := db1, qrAttempted := qrAttempted, mailSent := false, mailAttachment := false }
    | .ok _ =>
      let attach := shouldAttachQr && qrPngBase64.isSome
      match sendMail with
      | .ok msgId =>
        { response := .success newId ticketUrl issuedAt { ok := true, id := some msgId },
          db := db1, qrAttempted := qrAttempted, mailSent := true, mailAttachment := attach }
      | .error m =>
        { response := .success newId ticketUrl issuedAt { ok := false, error := some m },
          db := db1, qrAttempted := qrAttempted, mailSent := true, mailAttachment := attach }

/-- POST /api/tickets/issue after auth and the required-field check:
look up the ticket type (joined with its event), insert the ticket row,
decide `linkOnly` (defaulting to true), generate the QR PNG only when
`linkOnly` is false — a QR generation failure escapes to the route's
outer catch, producing a 500 response while the inserted row remains —
then run the notification step.  External effects are oracles:
`transport` is the `getSmtpTransport` outcome, `qrGen` the
`QRCode.toBuffer` outcome, `sendMail` the `transporter.sendMail`
outcome. -/
def issueHandler (db : DB) (ticketTypeId : Nat) (email : String)
    (name : Option String) (linkOnly skipEmail : JsValue)
    (newId publicBase : String) (now : Nat)
    (transport : Except String Unit) (qrGen : Except String String)
    (sendMail : Except String String) : IssueRunResult :=
  match db.ticketTypes.find? fun tt =>
      tt.id == ticketTypeId && db.events.contains tt.eventId with
  | none =>
    { response := .badRequest "Invalid ticketTypeId", db := db,
      qrAttempted := false, mailSent := false, mailAttachment := false }
  | some _ =>
    let ins := issueInsert db ticketTypeId email name newId now
    let db1 := ins.1
    let ticketUrl := publicBase ++ "/t/" ++ newId
    let isLinkOnly := (toBooleanOrUndefined linkOnly).getD true
    let shouldAttachQr := !isLinkOnly
    if shouldAttachQr then
      match qrGen with
      | .error e =>
        { response := .serverError e, db := db1,
          qrAttempted := true, mailSent := false, mailAttachment := false }
      | .ok png =>
        issueEmailPhase db1 newId ticketUrl now shouldAttachQr (some png)
          skipEmail transport sendMail true
    else
      issueEmailPhase db1 newId ticketUrl now shouldAttachQr none
        skipEmail transport sendMail false

/-- One racing redeem call: the scanner key id that authorized it and
the store timestamp its update would stamp. -/
structure RaceCall where
  keyId : Nat
  time : Nat
  deriving Repr, DecidableEq

/-- A race of concurrent redeem calls on one token.  Each call's
decisive transition is the single conditional update, which the store
executes atomically (row-level atomicity); an interleaving is therefore
a serialization order of the calls, and this function runs them in that
order. -/
def runRace (ticketId : String) (scannerEventId : Nat) :
    DB → List RaceCall → List RedeemStatus × DB
  | db, [] => ([], db)
  | db, c :: calls =>
    let r := redeem db ticketId scannerEventId c.keyId c.time
    let rest := runRace ticketId scannerEventId r.2 calls
    (r.1 :: rest.1, rest.2)

/-- JS regex word character `\w`, i.e. `[A-Za-z0-9_]`. -/
def isWordChar (c : Char) : Bool :=
  c.isAlphanum || c == '_'

/-- Word-boundary condition before a match: start of string or a
non-word character. -/
def boundaryOk : Option Char → Bool
  | none => true
  | some c => !isWordChar c

/-- Does `w` occur at the head of `s` with a word boundary after it? -/
def wordMatchHere (s w : List Char) : Bool :=
  w.isPrefixOf s &&
    match s.drop w.length with
    | [] => true
    | c :: _ => !isWordChar c

/-- Scan of `s` for an occurrence of `w` between word boundaries
(`prev` is the character before the current position). -/
def hasWordAux (w : List Char) : Option Char → List Char → Bool
  | prev, [] => boundaryOk prev && wordMatchHere [] w
  | prev, c :: rest =>
    (boundaryOk prev && wordMatchHere (c :: rest) w) || hasWordAux w (some c) rest

/-- The JS regex test `/\bw\b/.test(s)` for a word `w` made of word
characters. -/
def hasWord (s w : String) : Bool :=
  hasWordAux w.toList none s.toList

/-- Substring scan backing `String.prototype.includes`. -/
def containsSubAux (w : List Char) : List Char → Bool
  | [] => w.isPrefixOf []
  | c :: rest => w.isPrefixOf (c :: rest) || containsSubAux w rest

/-- JS `s.includes(w)`. -/
def containsSubstr (s w : String) : Bool :=
  containsSubAux w.toList s.toList

/-- Whitespace-run collapsing, the `replace(/\s+/g, " ")` step.  The
flag records whether the previous character was whitespace. -/
def collapseWsAux : Bool → List Char → List Char
  | _, [] => []
  | prevSpace, c :: rest =>
    if c.isWhitespace then
      if prevSpace then collapseWsAux true rest
      else ' ' :: collapseWsAux true rest
    else c :: collapseWsAux false rest

/-- `normalizeTicketTypeKey` of the issue route: trim, lowercase and
collapse whitespace runs.  The source additionally applies NFKD
normalization and strips combining marks, which is the identity on the
ASCII keys this development evaluates. -/
def normalizeTicketTypeKey (s : String) : String :=
  String.mk (collapseWsAux false (jsToLower (jsTrim s)).data)

/-- `isFoodAndBallTicketType` of the issue route: the key contains the
word `ball` and one of the food words `matur`/`mat`. -/
def isFoodAndBallTicketType (normalizedKey : String) : Bool :=
  hasWord normalizedKey "ball" &&
    (hasWord normalizedKey "matur" || hasWord normalizedKey "mat")

/-- `isJustBallTicketType` of the issue route: exactly `ball`, or the
qualifier word `bara` together with the word `ball`. -/
def isJustBallTicketType (normalizedKey : String) : Bool :=
  normalizedKey == "ball" ||
    (hasWord normalizedKey "bara" && hasWord normalizedKey "ball")

/-- The two campaign ticket kinds the keyword rules can resolve to. -/
inductive ResolvedTicketKind where
  | foodAndBall
  | justBall
  deriving Repr, DecidableEq

/-- The precedence chain of `formatSubjectStart` (the source comment:
precedence matters, food+ball must win over any ball matching): food
and ball first, then just-ball, else no match. -/
def resolveTicketKind (normalizedKey : String) : Option ResolvedTicketKind :=
  if isFoodAndBallTicketType normalizedKey then some ResolvedTicketKind.foodAndBall
  else if isJustBallTicketType normalizedKey then some ResolvedTicketKind.justBall
  else none

/-- `stripDiacriticsLower` of the bulk script: trim and lowercase (the
source's NFKD-plus-combining-mark-strip is the identity on the ASCII
keys this development evaluates). -/
def stripDiacriticsLower (s : String) : String :=
  jsToLower (jsTrim s)

/-- The type-choice keyword step of the bulk script main loop:
substring `mat` and substring `ball` resolve to Matur + ball, else
substring `ball` alone resolves to Bara ball, else no wanted type. -/
def scriptWantedTypeName (ticketChoiceKey : String) : Option String :=
  if containsSubstr ticketChoiceKey "mat" && containsSubstr ticketChoiceKey "ball" then
    some "Matur + ball"
  else if containsSubstr ticketChoiceKey "ball" then
    some "Bara ball"
  else none

/-- JS truthiness of a JSON value, as used by the handlers' falsy
checks on request fields. -/
def jsTruthy : JsValue → Bool
  | .undef => false
  | .null => false
  | .bool b => b
  | .num n => n != 0
  | .str s => !(s == "")
  | .arr _ => true
  | .obj => true

/-- GET /api/tickets/get reaches its store query only when the `id`
query parameter is present, truthy, and passes the canonical token
regex; otherwise it answers 400 first. -/
def getHandlerQueriesStore (id : Option String) : Bool :=
  match id with
  | none => false
  | some s => !(s == "") && isCanonicalUuid s

/-- POST /api/tickets/validate (with a bearer token present) reaches
its store queries whenever the body `ticketId` is truthy: the only
pre-store check on the token is `if (!ticketId)`. -/
def validateHandlerQueriesStore (ticketId : JsValue) : Bool :=
  jsTruthy ticketId

/-- One attempt's outcome as seen by `fetchJsonWithRetry`: a network
failure (the `fetch` promise rejects) or an HTTP response with a
status and a JSON body (modelled as a string). -/
inductive FetchOutcome where
  | netError (msg : String)
  | response (status : Nat) (json : String)
  deriving Repr, DecidableEq

/-- `res.ok` of the Fetch API: status in the range 200–299. -/
def resOk (status : Nat) : Bool :=
  200 ≤ status && status < 300

/-- The transient-signal test of `fetchJsonWithRetry`:
`res.status === 429 || res.status >= 500`. -/
def shouldRetryStatus (status : Nat) : Bool :=
  status == 429 || 500 ≤ status

/-- The backoff delay before the next attempt:
`baseDelayMs * 2 ** (attempt - 1)`. -/
def backoffDelay (baseDelayMs attempt : Nat) : Nat :=
  baseDelayMs * 2 ^ (attempt - 1)

/-- Result shape of `fetchJsonWithRetry`. -/
structure FetchResult where
  ok : Bool
  status : Nat
  json : String
  deriving Repr, DecidableEq

/-- Body of the fallthrough result after the attempt loop:
`lastErr?.message ?? String(lastErr)`. -/
def errJson : Option String → String
  | some m => m
  | none => "null"

/-- The attempt loop of `fetchJsonWithRetry`.  `attempt` is the
1-based attempt counter, `fuel` the remaining loop iterations
(initially `maxAttempts`), `lastErr` the last caught network error and
`delays` the backoff sleeps performed so far (accumulated reversed).
A 2xx returns success at once; a non-retryable status, or any status
on the final attempt, returns that failure; a retryable status or a
network error before the final attempt sleeps the exponential delay
and retries; a network error on the final attempt falls through to the
status-0 result. -/
def fetchAux (outcomes : Nat → FetchOutcome) (maxAttempts baseDelayMs : Nat) :
    Nat → Nat → Option String → List Nat → FetchResult × List Nat
  | _, 0, lastErr, delays =>
    ({ ok := false, status := 0, json := errJson lastErr }, delays.reverse)
  | attempt, fuel + 1, lastErr, delays =>
    match outcomes attempt with
    | .response s j =>
      if resOk s then ({ ok := true, status := s, json := j }, delays.reverse)
      else if !shouldRetryStatus s || attempt == maxAttempts then
        ({ ok := false, status := s, json := j }, delays.reverse)
      else
        fetchAux outcomes maxAttempts baseDelayMs (attempt + 1) fuel lastErr
          (backoffDelay baseDelayMs attempt :: delays)
    | .netError m =>
      if attempt == maxAttempts then
        ({ ok := false, status := 0, json := errJson (some m) }, delays.reverse)
      else
        fetchAux outcomes maxAttempts baseDelayMs (attempt + 1) fuel (some m)
          (backoffDelay baseDelayMs attempt :: delays)

/-- `fetchJsonWithRetry` of the bulk script, with the attempt outcomes
supplied as an oracle indexed by attempt number.  Returns the result
and the list of backoff delays slept, in order. -/
def fetchJsonWithRetry (outcomes : Nat → FetchOutcome) (maxAttempts baseDelayMs : Nat) :
    FetchResult × List Nat :=
  fetchAux outcomes maxAttempts baseDelayMs 1 maxAttempts none []

/-- One eligible recipient row as built by the bulk script's CSV pass
(`email` is already normalized by `normalizeEmail`). -/
structure PipelineRow where
  email : String
  name : Option String
  wantedTypeName : String
  ticketTypeId : Nat
  deriving Repr, DecidableEq

/-- One ledger (JSONL log) record, with the fields the script reads
back. -/
structure LedgerRecord where
  ok : Bool
  email : String
  ticketId : Option String := none
  error : Option String := none
  deriving Repr, DecidableEq

/-- `normalizeEmail` of the bulk script: trim and lowercase. -/
def normalizeEmail (s : String) : String :=
  jsToLower (jsTrim s)

/-- `readJsonlSet`: the set (as a list, membership is what matters) of
normalized emails with an `ok` truthy and `email` truthy record in the
ledger. -/
def readJsonlSet (ledger : List LedgerRecord) : List String :=
  (ledger.filter fun r => r.ok && !(r.email == "")).map fun r => normalizeEmail r.email

/-- First-occurrence deduplication by email (the script's seen-set
loop). -/
def dedupeByEmailAux (seen : List String) : List PipelineRow → List PipelineRow
  | [] => []
  | r :: rest =>
    if seen.contains r.email then dedupeByEmailAux seen rest
    else r :: dedupeByEmailAux (r.email :: seen) rest

/-- See `dedupeByEmailAux`. -/
def dedupeByEmail (rows : List PipelineRow) : List PipelineRow :=
  dedupeByEmailAux [] rows

/-- Outcome of one issuance call sequence (`fetchJsonWithRetry` against
POST /api/tickets/issue) for one recipient. -/
inductive IssueOutcome where
  | success (ticketId ticketUrl : String)
  | failure (status : Nat) (error : String)
  deriving Repr, DecidableEq

/-- The send loop of the bulk script `main`: for each pending row in
order, one issuance call sequence (indexed by `i`), then exactly one
ledger append reflecting the outcome.  Returns the appended records in
order and the number of issuance call sequences performed. -/
def issueLoop (outcome : Nat → IssueOutcome) :
    Nat → List PipelineRow → List LedgerRecord × Nat
  | _, [] => ([], 0)
  | i, r :: rest =>
    let entry : LedgerRecord :=
      match outcome i with
      | .success tid _ => { ok := true, email := r.email, ticketId := some tid }
      | .failure _ err => { ok := false, email := r.email, error := some err }
    let tail := issueLoop outcome (i + 1) rest
    (entry :: tail.1, tail.2 + 1)

/-- The pending list of one run: eligible rows deduplicated by email,
minus recipients with a prior successful ledger record. -/
def pendingRows (rows : List PipelineRow) (ledger : List LedgerRecord) :
    List PipelineRow :=
  (dedupeByEmail rows).filter fun r => !((readJsonlSet ledger).contains r.email)

/-- One (non-dry-run) run of the bulk script over already-parsed
eligible rows: filter against the ledger, apply the `--max` cap
(`maxN = 0` means no cap), and run the send loop.  Returns the ledger
records appended by this run and the number of issuance call
sequences made. -/
def runPipeline (rows : List PipelineRow) (ledger : List LedgerRecord)
    (maxN : Nat) (outcome : Nat → IssueOutcome) : List LedgerRecord × Nat :=
  let pending := pendingRows rows ledger
  let limit := if 0 < maxN then maxN else pending.length
  issueLoop outcome 1 (pending.take limit)

/-- An attempt outcome the retry loop treats as transient: a network
failure, or a non-ok response whose status is 429 or at least 500. -/
def transientOutcome : FetchOutcome → Bool
  | .netError _ => true
  | .response s _ => !resOk s && shouldRetryStatus s

/-- Lookup of a ticket row by token (primary-key access). -/
def findTicket (db : DB) (ticketId : String) : Option TicketRow :=
  db.tickets.find? fun t => t.id == ticketId

/-- Is a redeem outcome the VALID variant? -/
def isValidStatus : RedeemStatus → Bool
  | .valid _ => true
  | _ => false

/-- Is a redeem outcome the ALREADY_USED variant? -/
def isAlreadyUsedStatus : RedeemStatus → Bool
  | .alreadyUsed _ => true
  | _ => false

/-- The spec's full per-ticket invariant: `used_at` and
`used_by_key_id` are non-null exactly when `used` is true. -/
def ticketFullInvariant (t : TicketRow) : Bool :=
  t.usedAt.isSome == t.used && t.usedByScannerKeyId.isSome == t.used

/-- The full invariant over the whole store. -/
def dbFullInvariant (db : DB) : Bool :=
  db.tickets.all ticketFullInvariant

/-- The weaker per-ticket invariant the burn path actually maintains:
`used_at` non-null iff `used`, and `used_by_key_id` non-null only if
`used`. -/
def ticketWeakInvariant (t : TicketRow) : Bool :=
  t.usedAt.isSome == t.used && (!t.usedByScannerKeyId.isSome || t.used)

/-- The weak invariant over the whole store. -/
def dbWeakInvariant (db : DB) : Bool :=
  db.tickets.all ticketWeakInvariant

/-- A canonically shaped token used in concrete evaluations. -/
def tok1 : String := "aaaaaaaa-0000-4000-8000-000000000001"

/-- A second canonically shaped token. -/
def tok2 : String := "bbbbbbbb-0000-4000-8000-000000000002"

/-- A concrete already-used ticket row. -/
def usedTicket : TicketRow :=
  { id := tok1, email := "a@b.is", name := none, ticketTypeId := 10,
    used := true, usedAt := some 100, usedByScannerKeyId := some 7, issuedAt := 5 }

/-- A concrete unused ticket row. -/
def freshTicket : TicketRow :=
  { id := tok1, email := "a@b.is", name := none, ticketTypeId := 10,
    used := false, usedAt := none, usedByScannerKeyId := none, issuedAt := 5 }

/-- A store holding the used sample ticket. -/
def usedDB : DB :=
  { tickets := [usedTicket],
    ticketTypes := [{ id := 10, eventId := 1 }], events := [1] }

/-- A store holding the fresh sample ticket, with a second event in
scope. -/
def freshDB : DB :=
  { tickets := [freshTicket],
    ticketTypes := [{ id := 10, eventId := 1 }, { id := 20, eventId := 2 }],
    events := [1, 2] }

/-- A store with no tickets yet. -/
def emptyDB : DB :=
  { tickets := [],
    ticketTypes := [{ id := 10, eventId := 1 }], events := [1] }

/-- C7 counterexample: the claim's resolver rules fail on the bulk
script's keyword step, which the claim also cites.  "handball" contains
the dance word only as a substring — no whole-word match, not exactly
"ball", no "bara" qualifier — so under the stated rules it is no match
(as the issue route's resolver indeed answers), yet the script resolves
it to the dance-only type; likewise "tomatsupa og ball" has no food
word, only the substring "mat", yet the script resolves it to the
combined type. -/
theorem claim_C7_counterexample :
    scriptWantedTypeName (stripDiacriticsLower "handball") = some "Bara ball" ∧
    hasWord (normalizeTicketTypeKey "handball") "ball" = false ∧
    normalizeTicketTypeKey "handball" ≠ "ball" ∧
    resolveTicketKind (normalizeTicketTypeKey "handball") = none ∧
    scriptWantedTypeName (stripDiacriticsLower "tomatsupa og ball") = some "Matur + ball" ∧
    hasWord (normalizeTicketTypeKey "tomatsupa og ball") "matur" = false ∧
    hasWord (normalizeTicketTypeKey "tomatsupa og ball") "mat" = false := by
  exact ⟨by decide, by decide, by decide, by decide, by decide, by decide, by decide⟩

/-- C7 amended: the issue route's resolver applies the stated keyword
precedence with whole-word matching — food word plus the ball word
resolve to the combined type regardless of other words; otherwise
exactly "ball", or the "bara" qualifier plus the ball word, resolve to
the dance-only type; otherwise no match.  The bulk script's keyword
step applies the same precedence but by substring containment — text
containing "mat" and "ball" as substrings resolves to the combined
type, else text containing the substring "ball" resolves to the
dance-only type, else no match — so it also matches inputs the
whole-word rules reject.  Both agree on the concrete examples: "Matur
og ball" resolves to the combined type, "Bara ball" and exactly "ball"
to the dance-only type, and "Matur" alone to no match. -/
theorem claim_C7_amended :
    (∀ key : String, hasWord key "ball" = true →
        hasWord key "matur" = true ∨ hasWord key "mat" = true →
        resolveTicketKind key = some ResolvedTicketKind.foodAndBall) ∧
    (∀ key : String, isFoodAndBallTicketType key = false →
        key = "ball" ∨ hasWord key "bara" = true ∧ hasWord key "ball" = true →
        resolveTicketKind key = some ResolvedTicketKind.justBall) ∧
    (∀ key : String, isFoodAndBallTicketType key = false →
        isJustBallTicketType key = false → resolveTicketKind key = none) ∧
    (∀ key : String, containsSubstr key "mat" = true → containsSubstr key "ball" = true →
        scriptWantedTypeName key = some "Matur + ball") ∧
    (∀ key : String, ¬(containsSubstr key "mat" = true ∧ containsSubstr key "ball" = true) →
        containsSubstr key "ball" = true → scriptWantedTypeName key = some "Bara ball") ∧
    (∀ key : String, containsSubstr key "ball" = false → scriptWantedTypeName key = none) ∧
    resolveTicketKind (normalizeTicketTypeKey "Matur og ball") =
      some ResolvedTicketKind.foodAndBall ∧
    resolveTicketKind (normalizeTicketTypeKey "Bara ball") =
      some ResolvedTicketKind.justBall ∧
    resolveTicketKind (normalizeTicketTypeKey "ball") =
      some ResolvedTicketKind.justBall ∧
    resolveTicketKind (normalizeTicketTypeKey "Matur") = none ∧
    scriptWantedTypeName (stripDiacriticsLower "Matur og ball") = some "Matur + ball" ∧
    scriptWantedTypeName (stripDiacriticsLower "Bara ball") = some "Bara ball" ∧
    scriptWantedTypeName (stripDiacriticsLower "ball") = some "Bara ball" ∧
    scriptWantedTypeName (stripDiacriticsLower "Matur") = none := by
  refine ⟨?_, ?_, ?_, ?_, ?_, ?_, by decide, by decide, by decide, by decide,
    by decide, by decide, by decide, by decide⟩
  · intro key hb hf
    have hfb : isFoodAndBallTicketType key = true := by
      unfold isFoodAndBallTicketType
      rcases hf with h | h <;> simp [hb, h]
    simp [resolveTicketKind, hfb]
  · intro key hnf hj
    have hjb : isJustBallTicketType key = true := by
      unfold isJustBallTicketType
      rcases hj with h | ⟨h1, h2⟩
      · simp [h]
      · simp [h1, h2]
    simp [resolveTicketKind, hnf, hjb]
  · intro key h1 h2
    simp [resolveTicketKind, h1, h2]
  · intro key h1 h2
    simp [scriptWantedTypeName, h1, h2]
  · intro key hnot hb
    have hmat : containsSubstr key "mat" = false := by
      cases hm : containsSubstr key "mat"
      · rfl
      · exact absurd ⟨hm, hb⟩ hnot
    simp [scriptWantedTypeName, hmat, hb]
  · intro key hb
    simp [scriptWantedTypeName, hb]

/-- Witness for C7 amended: each rule applied at a concrete key,
including a key the whole-word rules reject but the substring step
accepts. -/
theorem claim_C7_amended_witness :
    resolveTicketKind "matur og ball" = some ResolvedTicketKind.foodAndBall ∧
    resolveTicketKind "bara ball" = some ResolvedTicketKind.justBall ∧
    resolveTicketKind "sushi" = none ∧
    scriptWantedTypeName "mat og ball" = some "Matur + ball" ∧
    scriptWantedTypeName "handball" = some "Bara ball" ∧
    scriptWantedTypeName "sushi" = none :=
  ⟨claim_C7_amended.1 "matur og ball" (by decide) (Or.inl (by decide)),
   claim_C7_amended.2.1 "bara ball" (by decide) (Or.inr ⟨by decide, by decide⟩),
   claim_C7_amended.2.2.1 "sushi" (by decide) (by decide),
   claim_C7_amended.2.2.2.1 "mat og ball" (by decide) (by decide),
   claim_C7_amended.2.2.2.2.1 "handball" (by decide) (by decide),
   claim_C7_amended.2.2.2.2.2.1 "sushi" (by decide)⟩

/-- C9 counterexample: the redemption endpoint's only pre-store check
on the token is truthiness, so the malformed token "abc" — which does
not match the canonical shape — still reaches the store queries,
contradicting the claim that all token-lookup operations reject
malformed input before any store query. -/
theorem claim_C9_counterexample :
    validateHandlerQueriesStore (JsValue.str "abc") = true ∧
    isCanonicalUuid "abc" = false := by
  exact ⟨rfl, by decide⟩

/-- C9 amended: the ticket-get endpoint rejects every id that fails
the canonical shape (or is missing) before issuing a store query; the
redemption endpoint rejects only a missing/falsy token and passes any
truthy token — canonical or not — through to the store. -/
theorem claim_C9_amended :
    (∀ s : String, isCanonicalUuid s = false → getHandlerQueriesStore (some s) = false) ∧
    getHandlerQueriesStore none = false ∧
    (∀ v : JsValue, jsTruthy v = false → validateHandlerQueriesStore v = false) ∧
    validateHandlerQueriesStore (JsValue.str "abc") = true := by
  refine ⟨?_, rfl, ?_, rfl⟩
  · intro s h
    simp [getHandlerQueriesStore, h]
  · intro v h
    simpa [validateHandlerQueriesStore] using h

/-- Witness for C9 amended: concrete malformed id and falsy token. -/
theorem claim_C9_amended_witness :
    getHandlerQueriesStore (some "abc") = false ∧
    validateHandlerQueriesStore (JsValue.str "") = false :=
  ⟨claim_C9_amended.1 "abc" (by decide), claim_C9_amended.2.2.1 (JsValue.str "") (by decide)⟩

/-- C10: when POST /tickets/issue is called with no `linkOnly` field or
with a value parsing to neither true nor false, the request defaults to
link-only — no QR artifact is generated and no attachment is included;
likewise when it parses to true; and QR generation or attachment
happens only when `linkOnly` parses to false. -/
theorem claim_C10_link_only_default (db : DB) (ticketTypeId : Nat) (email : String)
    (name : Option String) (linkOnly skipEmail : JsValue) (newId publicBase : String)
    (now : Nat) (transport : Except String Unit) (qrGen sendMail : Except String String) :
    (toBooleanOrUndefined linkOnly = none →
      (issueHandler db ticketTypeId email name linkOnly skipEmail newId publicBase now
          transport qrGen sendMail).qrAttempted = false ∧
      (issueHandler db ticketTypeId email name linkOnly skipEmail newId publicBase now
          transport qrGen sendMail).mailAttachment = false) ∧
    (toBooleanOrUndefined linkOnly = some true →
      (issueHandler db ticketTypeId email name linkOnly skipEmail newId publicBase now
          transport qrGen sendMail).qrAttempted = false ∧
      (issueHandler db ticketTypeId email name linkOnly skipEmail newId publicBase now
          transport qrGen sendMail).mailAttachment = false) ∧
    ((issueHandler db ticketTypeId email name linkOnly skipEmail newId publicBase now
          transport qrGen sendMail).qrAttempted = true →
      toBooleanOrUndefined linkOnly = some false) ∧
    ((issueHandler db ticketTypeId email name linkOnly skipEmail newId publicBase now
          transport qrGen sendMail).mailAttachment = true →
      toBooleanOrUndefined linkOnly = some false) := by
  have hnoqr : ∀ h : Option Bool, h.getD true = true →
      toBooleanOrUndefined linkOnly = h →
      (issueHandler db ticketTypeId email name linkOnly skipEmail newId publicBase now
          transport qrGen sendMail).qrAttempted = false ∧
      (issueHandler db ticketTypeId email name linkOnly skipEmail newId publicBase now
          transport qrGen sendMail).mailAttachment = false := by
    intro h hget hparse
    unfold issueHandler
    cases hfind : db.ticketTypes.find? fun tt =>
        tt.id == ticketTypeId && db.events.contains tt.eventId with
    | none => exact ⟨rfl, rfl⟩
    | some tt =>
      simp only [hparse, hget, Bool.not_true]
      unfold issueEmailPhase
      cases hskip : (toBooleanOrUndefined skipEmail).getD false with
      | true => simp
      | false =>
        cases transport with
        | error e => simp
        | ok u =>
          cases sendMail with
          | ok msgId => simp
          | error m => simp
  refine ⟨fun hp => hnoqr none (by simp) hp, fun hp => hnoqr (some true) (by simp) hp, ?_, ?_⟩
  · intro hqr
    cases hparse : toBooleanOrUndefined linkOnly with
    | none =>
      exact absurd hqr (by simp [(hnoqr none (by simp) hparse).1])
    | some b =>
      cases b with
      | true => exact absurd hqr (by simp [(hnoqr (some true) (by simp) hparse).1])
      | false => rfl
  · intro hatt
    cases hparse : toBooleanOrUndefined linkOnly with
    | none =>
      exact absurd hatt (by simp [(hnoqr none (by simp) hparse).2])
    | some b =>
      cases b with
      | true => exact absurd hatt (by simp [(hnoqr (some true) (by simp) hparse).2])
      | false => rfl

/-- Witness for C10: a concrete request with `linkOnly` absent neither
generates a QR nor attaches one. -/
theorem claim_C10_link_only_default_witness :
    (issueHandler { tickets := [], ticketTypes := [{ id := 10, eventId := 1 }], events := [1] }
        10 "a@b.is" none JsValue.undef JsValue.undef
        "bbbbbbbb-0000-4000-8000-000000000002" "https://w" 9
        (Except.ok ()) (Except.ok "png") (Except.ok "mid")).qrAttempted = false :=
  (claim_C10_link_only_default { tickets := [], ticketTypes := [{ id := 10, eventId := 1 }], events := [1] }
      10 "a@b.is" none JsValue.undef JsValue.undef
      "bbbbbbbb-0000-4000-8000-000000000002" "https://w" 9
      (Except.ok ()) (Except.ok "png") (Except.ok "mid")).1 rfl |>.1

/-- The notification step never touches the store: its result carries
the store it was given. -/
theorem issueEmailPhase_db (db1 : DB) (newId ticketUrl : String) (issuedAt : Nat)
    (shouldAttachQr : Bool) (qrPngBase64 : Option String) (skipEmail : JsValue)
    (transport : Except String Unit) (sendMail : Except String String)
    (qrAttempted : Bool) :
    (issueEmailPhase db1 newId ticketUrl issuedAt shouldAttachQr qrPngBase64
      skipEmail transport sendMail qrAttempted).db = db1 := by
  unfold issueEmailPhase
  cases (toBooleanOrUndefined skipEmail).getD false with
  | true => rfl
  | false =>
    cases transport with
    | error e => rfl
    | ok u =>
      cases sendMail with
      | ok msgId => rfl
      | error m => rfl

/-- Once the type lookup succeeds, the handler's final store is exactly
the store after the insert, whatever the QR and email oracles do. -/
theorem issueHandler_db_of_found (db : DB) (ticketTypeId : Nat) (email : String)
    (name : Option String) (linkOnly skipEmail : JsValue) (newId publicBase : String)
    (now : Nat) (transport : Except String Unit) (qrGen sendMail : Except String String)
    (tt : TicketTypeRow)
    (hfind : (db.ticketTypes.find? fun tt =>
        tt.id == ticketTypeId && db.events.contains tt.eventId) = some tt) :
    (issueHandler db ticketTypeId email name linkOnly skipEmail newId publicBase now
        transport qrGen sendMail).db =
      (issueInsert db ticketTypeId email name newId now).1 := by
  unfold issueHandler
  rw [hfind]
  cases h : !(toBooleanOrUndefined linkOnly).getD true with
  | false => simpa [h] using issueEmailPhase_db _ _ _ _ _ _ _ _ _ _
  | true =>
    cases qrGen with
    | error e => simp [h]
    | ok png => simpa [h] using issueEmailPhase_db _ _ _ _ _ _ _ _ _ _

/-- C6 counterexample: with `linkOnly` false and a failing QR
generation, the response is the 500 `serverError` — not `ok:true` — even
though the inserted ticket row is present in the final store.  This
refutes the claim that a scannable-artifact failure still yields an
`ok:true` response. -/
theorem claim_C6_counterexample :
    (issueHandler { tickets := [], ticketTypes := [{ id := 10, eventId := 1 }], events := [1] }
        10 "x@y.is" none (JsValue.bool false) JsValue.undef
        "bbbbbbbb-0000-4000-8000-000000000002" "https://w" 9
        (Except.ok ()) (Except.error "qr boom") (Except.ok "mid")).response =
      IssueResponse.serverError "qr boom" ∧
    ((issueHandler { tickets := [], ticketTypes := [{ id := 10, eventId := 1 }], events := [1] }
        10 "x@y.is" none (JsValue.bool false) JsValue.undef
        "bbbbbbbb-0000-4000-8000-000000000002" "https://w" 9
        (Except.ok ()) (Except.error "qr boom") (Except.ok "mid")).db.tickets.map
          TicketRow.id) = ["bbbbbbbb-0000-4000-8000-000000000002"] := by
  exact ⟨rfl, rfl⟩

/-- C6 amended: once the insert has happened, neither a QR-generation
failure nor an email-dispatch failure removes the ticket — the final
store is always the post-insert store.  An email failure (with the QR
step not failing) still answers `ok:true` with ticketId, ticketUrl and
issuedAt, carrying the structured email sub-result `{ok:false, error}`,
distinguishable from ticket-creation failure.  A QR-generation failure,
however, surfaces as the 500 error response even though the ticket
remains. -/
theorem claim_C6_amended (db : DB) (ticketTypeId : Nat) (email : String)
    (name : Option String) (linkOnly skipEmail : JsValue) (newId publicBase : String)
    (now : Nat) (transport : Except String Unit) (qrGen sendMail : Except String String)
    (tt : TicketTypeRow)
    (hfind : (db.ticketTypes.find? fun tt =>
        tt.id == ticketTypeId && db.events.contains tt.eventId) = some tt) :
    ((issueInsert db ticketTypeId email name newId now).2 ∈
      (issueHandler db ticketTypeId email name linkOnly skipEmail newId publicBase now
        transport qrGen sendMail).db.tickets) ∧
    (∀ m, sendMail = Except.error m → transport = Except.ok () →
      (toBooleanOrUndefined skipEmail).getD false = false →
      ((toBooleanOrUndefined linkOnly).getD true = true ∨ ∃ png, qrGen = Except.ok png) →
      ∃ attach,
        (issueHandler db ticketTypeId email name linkOnly skipEmail newId publicBase now
          transport qrGen sendMail).response =
        IssueResponse.success newId (publicBase ++ "/t/" ++ newId) now
          { ok := false, error := some m } ∧
        (issueHandler db ticketTypeId email name linkOnly skipEmail newId publicBase now
          transport qrGen sendMail).mailAttachment = attach) ∧
    (∀ e, qrGen = Except.error e → (toBooleanOrUndefined linkOnly).getD true = false →
      (issueHandler db ticketTypeId email name linkOnly skipEmail newId publicBase now
        transport qrGen sendMail).response = IssueResponse.serverError e) := by
  refine ⟨?_, ?_, ?_⟩
  · rw [issueHandler_db_of_found db ticketTypeId email name linkOnly skipEmail newId
      publicBase now transport qrGen sendMail tt hfind]
    simp [issueInsert]
  · intro m hsend htrans hskip hqr
    unfold issueHandler
    rw [hfind]
    rcases hqr with hlink | ⟨png, hpng⟩
    · refine ⟨false, ?_, ?_⟩ <;>
        simp [hlink, issueEmailPhase, hskip, htrans, hsend]
    · cases hlink : !(toBooleanOrUndefined linkOnly).getD true with
      | false =>
        refine ⟨false, ?_, ?_⟩ <;>
          simp [hlink, issueEmailPhase, hskip, htrans, hsend]
      | true =>
        refine ⟨true, ?_, ?_⟩ <;>
          simp [hlink, hpng, issueEmailPhase, hskip, htrans, hsend]
  · intro e hqr hlink
    unfold issueHandler
    rw [hfind]
    simp [hlink, hqr]

/-- Witness for C6 amended: a concrete issue call whose email send
fails still answers `ok:true` with the structured sub-result, and the
ticket is in the store. -/
theorem claim_C6_amended_witness :
    ((issueInsert { tickets := [], ticketTypes := [{ id := 10, eventId := 1 }], events := [1] }
        10 "x@y.is" none "bbbbbbbb-0000-4000-8000-000000000002" 9).2 ∈
      (issueHandler { tickets := [], ticketTypes := [{ id := 10, eventId := 1 }], events := [1] }
        10 "x@y.is" none JsValue.undef JsValue.undef
        "bbbbbbbb-0000-4000-8000-000000000002" "https://w" 9
        (Except.ok ()) (Except.ok "png") (Except.error "smtp down")).db.tickets) ∧
    ∃ attach,
      (issueHandler { tickets := [], ticketTypes := [{ id := 10, eventId := 1 }], events := [1] }
        10 "x@y.is" none JsValue.undef JsValue.undef
        "bbbbbbbb-0000-4000-8000-000000000002" "https://w" 9
        (Except.ok ()) (Except.ok "png") (Except.error "smtp down")).response =
      IssueResponse.success "bbbbbbbb-0000-4000-8000-000000000002"
        ("https://w" ++ "/t/" ++ "bbbbbbbb-0000-4000-8000-000000000002") 9
        { ok := false, error := some "smtp down" } ∧
      (issueHandler { tickets := [], ticketTypes := [{ id := 10, eventId := 1 }], events := [1] }
        10 "x@y.is" none JsValue.undef JsValue.undef
        "bbbbbbbb-0000-4000-8000-000000000002" "https://w" 9
        (Except.ok ()) (Except.ok "png") (Except.error "smtp down")).mailAttachment = attach := by
  have h := claim_C6_amended
    { tickets := [], ticketTypes := [{ id := 10, eventId := 1 }], events := [1] }
    10 "x@y.is" none JsValue.undef JsValue.undef
    "bbbbbbbb-0000-4000-8000-000000000002" "https://w" 9
    (Except.ok ()) (Except.ok "png") (Except.error "smtp down")
    { id := 10, eventId := 1 } rfl
  exact ⟨h.1, h.2.1 "smtp down" rfl rfl rfl (Or.inl rfl)⟩

/-- When every outcome from `attempt` through the ceiling is
transient, the loop exhausts its attempts, sleeps the exponential
delays, and surfaces a failure. -/
theorem fetchAux_transient (outcomes : Nat → FetchOutcome) (maxAttempts baseDelayMs : Nat) :
    ∀ fuel attempt lastErr delays,
      attempt + fuel = maxAttempts + 1 →
      (∀ i, attempt ≤ i → i ≤ maxAttempts → transientOutcome (outcomes i) = true) →
      (fetchAux outcomes maxAttempts baseDelayMs attempt fuel lastErr delays).1.ok = false ∧
      (fetchAux outcomes maxAttempts baseDelayMs attempt fuel lastErr delays).2 =
        delays.reverse ++ (List.range' attempt (fuel - 1)).map (backoffDelay baseDelayMs) := by
  intro fuel
  induction fuel with
  | zero =>
    intro attempt lastErr delays hsum htrans
    simp [fetchAux]
  | succ n ih =>
    intro attempt lastErr delays hsum htrans
    have hle : attempt ≤ maxAttempts := by omega
    have ht := htrans attempt le_rfl hle
    unfold fetchAux
    cases hout : outcomes attempt with
    | netError m =>
      by_cases heq : attempt = maxAttempts
      · have hn : n = 0 := by omega
        subst hn
        simp [heq, List.range']
      · have hne : (attempt == maxAttempts) = false := by
          simp [heq]
        obtain ⟨m', rfl⟩ : ∃ m', n = m' + 1 := ⟨n - 1, by omega⟩
        have hrec := ih (attempt + 1) (some m) (backoffDelay baseDelayMs attempt :: delays)
          (by omega) (fun i hi1 hi2 => htrans i (by omega) hi2)
        simp only [hne, Bool.false_eq_true, if_false]
        refine ⟨hrec.1, ?_⟩
        rw [hrec.2]
        simp [List.range']
    | response s j =>
      rw [hout] at ht
      have hok : resOk s = false := by
        cases h : resOk s <;> simp [transientOutcome, h] at ht ⊢
      have hretry : shouldRetryStatus s = true := by
        cases h : shouldRetryStatus s <;> simp [transientOutcome, h, hok] at ht ⊢
      by_cases heq : attempt = maxAttempts
      · have hn : n = 0 := by omega
        subst hn
        simp [heq, hok, hretry, List.range']
      · have hne : (attempt == maxAttempts) = false := by
          simp [heq]
        obtain ⟨m', rfl⟩ : ∃ m', n = m' + 1 := ⟨n - 1, by omega⟩
        have hrec := ih (attempt + 1) lastErr (backoffDelay baseDelayMs attempt :: delays)
          (by omega) (fun i hi1 hi2 => htrans i (by omega) hi2)
        simp only [hok, hretry, hne, Bool.not_true, Bool.false_or, Bool.false_eq_true,
          if_false]
        refine ⟨hrec.1, ?_⟩
        rw [hrec.2]
        simp [List.range']

/-- C8: for every remote issuance call, a 429 or >=500 response or a
network failure is retried with exponential backoff (the slept delays
double each attempt) up to the fixed attempt ceiling before the
failure is surfaced; any other non-ok status is returned immediately
with no retry; a successful response is returned immediately. -/
theorem claim_C8_retry_policy (outcomes : Nat → FetchOutcome)
    (maxAttempts baseDelayMs : Nat) (hmax : 1 ≤ maxAttempts) :
    (∀ s j, outcomes 1 = FetchOutcome.response s j → resOk s = true →
      fetchJsonWithRetry outcomes maxAttempts baseDelayMs =
        ({ ok := true, status := s, json := j }, [])) ∧
    (∀ s j, outcomes 1 = FetchOutcome.response s j → resOk s = false →
      shouldRetryStatus s = false →
      fetchJsonWithRetry outcomes maxAttempts baseDelayMs =
        ({ ok := false, status := s, json := j }, [])) ∧
    ((∀ i, 1 ≤ i → i ≤ maxAttempts → transientOutcome (outcomes i) = true) →
      (fetchJsonWithRetry outcomes maxAttempts baseDelayMs).1.ok = false ∧
      (fetchJsonWithRetry outcomes maxAttempts baseDelayMs).2 =
        (List.range (maxAttempts - 1)).map fun k => baseDelayMs * 2 ^ k) := by
  obtain ⟨m, rfl⟩ : ∃ m, maxAttempts = m + 1 := ⟨maxAttempts - 1, by omega⟩
  refine ⟨?_, ?_, ?_⟩
  · intro s j hout hok
    unfold fetchJsonWithRetry fetchAux
    rw [hout]
    simp [hok]
  · intro s j hout hok hretry
    unfold fetchJsonWithRetry fetchAux
    rw [hout]
    simp [hok, hretry]
  · intro htrans
    have h := fetchAux_transient outcomes (m + 1) baseDelayMs (m + 1) 1 none [] (by omega) htrans
    refine ⟨h.1, ?_⟩
    rw [show fetchJsonWithRetry outcomes (m + 1) baseDelayMs =
      fetchAux outcomes (m + 1) baseDelayMs 1 (m + 1) none [] from rfl, h.2]
    rw [List.range'_eq_map_range]
    simp only [List.map_map, List.nil_append, Nat.add_sub_cancel]
    refine List.map_congr_left fun k hk => ?_
    simp [backoffDelay, Nat.add_comm 1 k]

/-- Witness for C8: a permanent 503 exhausts three attempts with
doubling delays; a 404 fails immediately with no retry. -/
theorem claim_C8_retry_policy_witness :
    (fetchJsonWithRetry (fun _ => FetchOutcome.response 503 "uh") 3 800).2 = [800, 1600] ∧
    fetchJsonWithRetry (fun _ => FetchOutcome.response 404 "no") 3 800 =
      ({ ok := false, status := 404, json := "no" }, []) := by
  refine ⟨?_, ?_⟩
  · have h := (claim_C8_retry_policy (fun _ => FetchOutcome.response 503 "uh") 3 800
      (by decide)).2.2 (fun i hi1 hi2 => by decide)
    rw [h.2]
    decide
  · exact (claim_C8_retry_policy (fun _ => FetchOutcome.response 404 "no") 3 800
      (by decide)).2.1 404 "no" rfl (by decide) (by decide)

/-- Filtering by a disjunction of pointwise-disjoint predicates splits
the count. -/
theorem length_filter_or_disjoint {α : Type} (p q : α → Bool) :
    ∀ l : List α, (∀ a ∈ l, ¬(p a = true ∧ q a = true)) →
      (l.filter fun a => p a || q a).length =
        (l.filter p).length + (l.filter q).length := by
  intro l
  induction l with
  | nil => simp
  | cons a rest ih =>
    intro h
    have hd := h a (by simp)
    have hr := ih fun x hx => h x (by simp [hx])
    cases hp : p a <;> cases hq : q a
    · simpa [List.filter_cons, hp, hq] using hr
    · simp [List.filter_cons, hp, hq, hr]
      omega
    · simp [List.filter_cons, hp, hq, hr]
      omega
    · exact absurd ⟨hp, hq⟩ hd

/-- In a duplicate-free list a value is hit at most once. -/
theorem length_filter_beq_of_nodup (a : String) :
    ∀ l : List String, l.Nodup →
      (l.filter fun s => s == a).length = if a ∈ l then 1 else 0 := by
  intro l
  induction l with
  | nil => simp
  | cons s rest ih =>
    intro h
    rw [List.nodup_cons] at h
    obtain ⟨hs, hrest⟩ := h
    by_cases heq : s = a
    · subst heq
      have hnil : rest.filter (fun x => x == s) = [] := by
        refine List.filter_eq_nil_iff.mpr fun x hx => ?_
        simp only [beq_iff_eq]
        rintro rfl
        exact hs hx
      simp [List.filter_cons, hnil]
    · have hne : a ≠ s := fun h => heq (Eq.symm h)
      rw [List.filter_cons]
      simp only [beq_iff_eq, heq, if_false]
      rw [ih hrest]
      simp [List.mem_cons, hne]

/-- Double counting: between two duplicate-free string lists, counting
members of one that occur in the other is symmetric. -/
theorem length_filter_contains_swap :
    ∀ A B : List String, A.Nodup → B.Nodup →
      (A.filter fun s => B.contains s).length =
        (B.filter fun s => A.contains s).length := by
  intro A
  induction A with
  | nil => intro B _ _; simp
  | cons a rest ih =>
    intro B hA hB
    rw [List.nodup_cons] at hA
    obtain ⟨ha, hrest⟩ := hA
    have hcongr : B.filter (fun s => (a :: rest).contains s) =
        B.filter fun s => (s == a) || rest.contains s := by
      refine List.filter_congr fun s _ => ?_
      by_cases hsa : s = a
      · subst hsa
        simp [List.contains_cons]
      · simp [List.contains_cons, hsa, Ne.symm hsa]
    have hdisj : ∀ s ∈ B, ¬((s == a) = true ∧ (rest.contains s) = true) := by
      intro s _ hand
      obtain ⟨h1, h2⟩ := hand
      rw [beq_iff_eq] at h1
      subst h1
      exact ha (by simpa using h2)
    rw [hcongr,
      length_filter_or_disjoint (fun s => s == a) (fun s => rest.contains s) B hdisj,
      length_filter_beq_of_nodup a B hB, ← ih B hrest hB]
    by_cases hmem : a ∈ B
    · simp [List.filter_cons, hmem]
      omega
    · simp [List.filter_cons, hmem]

/-- `dedupeAux` yields a duplicate-free list avoiding the seen set. -/
theorem dedupeAux_nodup :
    ∀ (l : List String) (seen : List String),
      (dedupeAux seen l).Nodup ∧ ∀ s ∈ dedupeAux seen l, s ∉ seen := by
  intro l
  induction l with
  | nil => intro seen; simp [dedupeAux]
  | cons s rest ih =>
    intro seen
    by_cases hs : s ∈ seen
    · rw [show dedupeAux seen (s :: rest) = dedupeAux seen rest from by
        simp [dedupeAux, hs]]
      exact ih seen
    · rw [show dedupeAux seen (s :: rest) = s :: dedupeAux (s :: seen) rest from by
        simp [dedupeAux, hs]]
      obtain ⟨hnd, havoid⟩ := ih (s :: seen)
      have hsnotin : s ∉ dedupeAux (s :: seen) rest := fun hmem =>
        havoid s hmem (by simp)
      refine ⟨List.nodup_cons.mpr ⟨hsnotin, hnd⟩, ?_⟩
      intro x hx
      rcases List.mem_cons.mp hx with rfl | hx'
      · exact hs
      · exact fun hxs => havoid x hx' (List.mem_cons_of_mem s hxs)

/-- `dedupeAux` only returns elements of its input. -/
theorem dedupeAux_subset :
    ∀ (l seen : List String) (s : String), s ∈ dedupeAux seen l → s ∈ l := by
  intro l
  induction l with
  | nil => intro seen s h; simp [dedupeAux] at h
  | cons x rest ih =>
    intro seen s h
    by_cases hx : x ∈ seen
    · rw [show dedupeAux seen (x :: rest) = dedupeAux seen rest from by
        simp [dedupeAux, hx]] at h
      exact List.mem_cons_of_mem x (ih seen s h)
    · rw [show dedupeAux seen (x :: rest) = x :: dedupeAux (x :: seen) rest from by
        simp [dedupeAux, hx]] at h
      rcases List.mem_cons.mp h with rfl | h'
      · exact List.mem_cons_self s rest
      · exact List.mem_cons_of_mem x (ih (x :: seen) s h')

/-- C5 counterexample: burning a token whose ticket is already used
(with `used_by_key_id` set) answers burned = 1 but re-stamps `used_at`
to the burn time and clears `used_by_key_id` to null, contradicting
the claim that it does not change `used_at` or `used_by_key_id` to
null. -/
theorem claim_C5_counterexample :
    (burnHandler usedDB (JsValue.str tok1) JsValue.undef 500).1 =
      BurnResponse.okBurned 1 ∧
    ((burnHandler usedDB (JsValue.str tok1) JsValue.undef 500).2.tickets.map
      fun t => (t.used, t.usedAt, t.usedByScannerKeyId)) = [(true, some 500, none)] := by
  exact ⟨by decide, by decide⟩

/-- C5 amended: the burned count equals the number of distinct
well-formed canonical (trimmed) tokens in the input that match
existing ticket rows — malformed entries are dropped and duplicates
collapsed before the update — and burning an already-used token is
counted, leaves `used = true`, but re-stamps `used_at` to the burn
time and clears `used_by_key_id` to null (as burning any matched
token does). -/
theorem claim_C5_amended (db : DB) (input : JsValue) (now : Nat)
    (hT : (db.tickets.map TicketRow.id).Nodup) :
    (normalizeTicketIds input).Nodup ∧
    (∀ s ∈ normalizeTicketIds input, isCanonicalUuid s = true) ∧
    (burnUpdate db (normalizeTicketIds input) now).2 =
      ((normalizeTicketIds input).filter
        fun s => (db.tickets.map TicketRow.id).contains s).length ∧
    (∀ t ∈ db.tickets, (normalizeTicketIds input).contains t.id = true →
      { t with used := true, usedAt := some now, usedByScannerKeyId := none } ∈
        (burnUpdate db (normalizeTicketIds input) now).1.tickets) ∧
    (∀ t ∈ db.tickets, (normalizeTicketIds input).contains t.id = false →
      t ∈ (burnUpdate db (normalizeTicketIds input) now).1.tickets) ∧
    (normalizeTicketIds input ≠ [] →
      (burnHandler db input JsValue.undef now).1 =
        BurnResponse.okBurned (burnUpdate db (normalizeTicketIds input) now).2) := by
  have hI : (normalizeTicketIds input).Nodup := (dedupeAux_nodup _ []).1
  refine ⟨hI, ?_, ?_, ?_, ?_, ?_⟩
  · intro s hs
    have hmem := dedupeAux_subset _ [] s hs
    exact (List.mem_filter.mp hmem).2
  · show (db.tickets.filter fun t => (normalizeTicketIds input).contains t.id).length = _
    have hmapfilter :
        (db.tickets.filter fun t => (normalizeTicketIds input).contains t.id).length =
          ((db.tickets.map TicketRow.id).filter
            fun s => (normalizeTicketIds input).contains s).length := by
      rw [← List.length_map _ TicketRow.id, List.filter_map]
      rfl
    rw [hmapfilter, length_filter_contains_swap _ _ hT hI]
  · intro t ht hc
    have hmem : t.id ∈ normalizeTicketIds input := List.elem_iff.mp hc
    refine List.mem_map.mpr ⟨t, ht, ?_⟩
    simp [hmem]
  · intro t ht hc
    have hmem : t.id ∉ normalizeTicketIds input := fun hm => by
      have hctrue : (normalizeTicketIds input).contains t.id = true := List.elem_iff.mpr hm
      rw [hctrue] at hc
      exact Bool.true_eq_false.mp hc
    refine List.mem_map.mpr ⟨t, ht, ?_⟩
    simp [hmem]
  · intro hne
    unfold burnHandler
    simp [burnInput, List.isEmpty_iff, hne]

/-- Witness for C5 amended: a concrete burn of one duplicated valid
token, one malformed entry, and one unmatched token. -/
theorem claim_C5_amended_witness :
    (burnUpdate usedDB
        (normalizeTicketIds (JsValue.arr [JsValue.str tok1, JsValue.str tok1,
          JsValue.str "junk", JsValue.str tok2])) 500).2 =
      ((normalizeTicketIds (JsValue.arr [JsValue.str tok1, JsValue.str tok1,
          JsValue.str "junk", JsValue.str tok2])).filter
        fun s => (usedDB.tickets.map TicketRow.id).contains s).length :=
  (claim_C5_amended usedDB
    (JsValue.arr [JsValue.str tok1, JsValue.str tok1,
      JsValue.str "junk", JsValue.str tok2]) 500 (by decide)).2.2.1

/-- The store redeem returns is the store the conditional update
produced, in every branch. -/
theorem redeem_db_eq (db : DB) (ticketId : String) (scannerEventId scannerKeyId now : Nat) :
    (redeem db ticketId scannerEventId scannerKeyId now).2 =
      (condUpdate db ticketId scannerEventId scannerKeyId now).1 := by
  by_cases h : ((condUpdate db ticketId scannerEventId scannerKeyId now).2 == 1) = true
  · simp [redeem, h]
  · cases hload : loadTicketRow (condUpdate db ticketId scannerEventId scannerKeyId now).1
        ticketId scannerEventId <;>
      simp [redeem, h, hload]

/-- C4 counterexample: the administrative burn breaks the biconditional
invariant — starting from a store where `used_at`/`used_by_key_id` are
non-null exactly when `used` holds, burning a ticket leaves it with
`used = true` but `used_by_key_id` null. -/
theorem claim_C4_counterexample :
    dbFullInvariant usedDB = true ∧
    dbFullInvariant (burnHandler usedDB (JsValue.str tok1) JsValue.undef 500).2 = false := by
  exact ⟨by decide, by decide⟩

/-- C4 amended: issuance and redemption preserve the full biconditional
invariant (`used_at`/`used_by_key_id` non-null iff `used`); all three
operations — issuance, redemption and burn — preserve the weaker
invariant (`used_at` non-null iff `used`, and `used_by_key_id` non-null
only if `used`), the burn clearing `used_by_key_id` while forcing
`used = true`; and under every operation a ticket with `used = true`
never reverts to `used = false`. -/
theorem claim_C4_amended :
    (∀ db ttid email name newId now, dbFullInvariant db = true →
      dbFullInvariant (issueInsert db ttid email name newId now).1 = true) ∧
    (∀ db tid eid kid now, dbFullInvariant db = true →
      dbFullInvariant (redeem db tid eid kid now).2 = true) ∧
    (∀ db ttid email name newId now, dbWeakInvariant db = true →
      dbWeakInvariant (issueInsert db ttid email name newId now).1 = true) ∧
    (∀ db tid eid kid now, dbWeakInvariant db = true →
      dbWeakInvariant (redeem db tid eid kid now).2 = true) ∧
    (∀ db tid tids now, dbWeakInvariant db = true →
      dbWeakInvariant (burnHandler db tid tids now).2 = true) ∧
    (∀ (db : DB) (ttid : Nat) (email : String) (name : Option String)
      (newId : String) (now i : Nat) (t : TicketRow),
      db.tickets[i]? = some t → t.used = true →
      ∃ t' : TicketRow, (issueInsert db ttid email name newId now).1.tickets[i]? = some t' ∧
        t'.used = true) ∧
    (∀ (db : DB) (tid : String) (eid kid now i : Nat) (t : TicketRow),
      db.tickets[i]? = some t → t.used = true →
      ∃ t' : TicketRow, (redeem db tid eid kid now).2.tickets[i]? = some t' ∧
        t'.used = true) ∧
    (∀ (db : DB) (tid tids : JsValue) (now i : Nat) (t : TicketRow),
      db.tickets[i]? = some t → t.used = true →
      ∃ t' : TicketRow, (burnHandler db tid tids now).2.tickets[i]? = some t' ∧
        t'.used = true) := by
  refine ⟨?_, ?_, ?_, ?_, ?_, ?_, ?_, ?_⟩
  · intro db ttid email name newId now h
    simp only [dbFullInvariant, issueInsert, List.all_eq_true] at h ⊢
    intro x hx
    rcases List.mem_append.mp hx with hx' | hx'
    · exact h x hx'
    · rcases List.mem_singleton.mp hx' with rfl
      simp [ticketFullInvariant]
  · intro db tid eid kid now h
    rw [redeem_db_eq]
    simp only [dbFullInvariant, condUpdate, List.all_eq_true] at h ⊢
    intro x hx
    obtain ⟨t, ht, rfl⟩ := List.mem_map.mp hx
    by_cases hc : condUpdateMatches db tid eid t = true
    · simp [hc, ticketFullInvariant]
    · simp only [hc, if_false]
      exact h t ht
  · intro db ttid email name newId now h
    simp only [dbWeakInvariant, issueInsert, List.all_eq_true] at h ⊢
    intro x hx
    rcases List.mem_append.mp hx with hx' | hx'
    · exact h x hx'
    · rcases List.mem_singleton.mp hx' with rfl
      simp [ticketWeakInvariant]
  · intro db tid eid kid now h
    rw [redeem_db_eq]
    simp only [dbWeakInvariant, condUpdate, List.all_eq_true] at h ⊢
    intro x hx
    obtain ⟨t, ht, rfl⟩ := List.mem_map.mp hx
    by_cases hc : condUpdateMatches db tid eid t = true
    · simp [hc, ticketWeakInvariant]
    · simp only [hc, if_false]
      exact h t ht
  · intro db tid tids now h
    have hgen : ∀ ids : List String,
        dbWeakInvariant (burnUpdate db ids now).1 = true := by
      intro ids
      simp only [dbWeakInvariant, burnUpdate, List.all_eq_true] at h ⊢
      intro x hx
      obtain ⟨t, ht, rfl⟩ := List.mem_map.mp hx
      by_cases hc : t.id ∈ ids
      · simp [hc, ticketWeakInvariant]
      · simpa [hc] using h t ht
    unfold burnHandler
    cases hie : (normalizeTicketIds (burnInput tid tids)).isEmpty
    · simpa [hie] using hgen (normalizeTicketIds (burnInput tid tids))
    · simpa [hie] using h
  · intro db ttid email name newId now i t hget hused
    have hlt : i < db.tickets.length := by
      by_contra hge
      rw [List.getElem?_eq_none (by omega)] at hget
      exact Option.noConfusion hget
    refine ⟨t, ?_, hused⟩
    simp only [issueInsert]
    rw [List.getElem?_append_left hlt]
    exact hget
  · intro db tid eid kid now i t hget hused
    rw [redeem_db_eq]
    simp only [condUpdate]
    refine ⟨if condUpdateMatches db tid eid t = true then
      { t with used := true, usedAt := some now, usedByScannerKeyId := some kid }
      else t, ?_, ?_⟩
    · rw [List.getElem?_map, hget]
      rfl
    · by_cases hc : condUpdateMatches db tid eid t = true <;> simp [hc, hused]
  · intro db tid tids now i t hget hused
    have hgen : ∀ ids : List String,
        ∃ t' : TicketRow, (burnUpdate db ids now).1.tickets[i]? = some t' ∧
          t'.used = true := by
      intro ids
      simp only [burnUpdate]
      refine ⟨if ids.contains t.id = true then
        { t with used := true, usedAt := some now, usedByScannerKeyId := none }
        else t, ?_, ?_⟩
      · rw [List.getElem?_map, hget]
        rfl
      · by_cases hc : t.id ∈ ids <;> simp [hc, hused]
    unfold burnHandler
    cases hie : (normalizeTicketIds (burnInput tid tids)).isEmpty
    · simpa [hie] using hgen (normalizeTicketIds (burnInput tid tids))
    · simp only [hie, if_true]
      exact ⟨t, hget, hused⟩

/-- Witness for C4 amended: redeeming the fresh sample store keeps the
full invariant. -/
theorem claim_C4_amended_witness :
    dbFullInvariant (redeem freshDB tok1 1 7 100).2 = true :=
  claim_C4_amended.2.1 freshDB tok1 1 7 100 (by decide)

/-- A row matched by the conditional update carries the requested
token. -/
theorem condUpdateMatches_id (db : DB) (tid : String) (eid : Nat) (u : TicketRow)
    (h : condUpdateMatches db tid eid u = true) : u.id = tid := by
  simp only [condUpdateMatches, Bool.and_eq_true, beq_iff_eq] at h
  exact h.1.1

/-- With duplicate-free primary keys, rows sharing an id are equal. -/
theorem mem_id_unique :
    ∀ l : List TicketRow, (l.map TicketRow.id).Nodup →
      ∀ t u : TicketRow, t ∈ l → u ∈ l → t.id = u.id → t = u := by
  intro l
  induction l with
  | nil =>
    intro _ t u ht
    cases ht
  | cons a rest ih =>
    intro hnd t u ht hu hid
    rw [List.map_cons, List.nodup_cons] at hnd
    obtain ⟨hna, hndr⟩ := hnd
    rcases List.mem_cons.mp ht with rfl | htr
    · rcases List.mem_cons.mp hu with rfl | hur
      · rfl
      · exact absurd (hid ▸ List.mem_map_of_mem TicketRow.id hur) hna
    · rcases List.mem_cons.mp hu with rfl | hur
      · exact absurd (hid ▸ List.mem_map_of_mem TicketRow.id htr) hna
      · exact ih hndr t u htr hur hid

/-- Filtering by a predicate that pins the primary key returns exactly
the one matching row. -/
theorem filter_key_singleton (p : TicketRow → Bool) (tid : String)
    (hkey : ∀ u, p u = true → u.id = tid) :
    ∀ l : List TicketRow, (l.map TicketRow.id).Nodup →
      ∀ t, t ∈ l → p t = true → l.filter p = [t] := by
  intro l
  induction l with
  | nil =>
    intro _ t ht
    cases ht
  | cons a rest ih =>
    intro hnd t ht hpt
    rw [List.map_cons, List.nodup_cons] at hnd
    obtain ⟨hna, hndr⟩ := hnd
    rcases List.mem_cons.mp ht with rfl | htr
    · have hfr : rest.filter p = [] := by
        refine List.filter_eq_nil_iff.mpr fun u hu hpu => ?_
        apply hna
        rw [hkey t hpt, ← hkey u hpu]
        exact List.mem_map_of_mem TicketRow.id hu
      simp [List.filter_cons, hpt, hfr]
    · have hpa : p a = false := by
        cases hpaeq : p a
        · rfl
        · exfalso
          apply hna
          rw [hkey a hpaeq, ← hkey t hpt]
          exact List.mem_map_of_mem TicketRow.id htr
      simp [List.filter_cons, hpa, ih hndr t htr hpt]

/-- Scanning by a predicate that pins the primary key finds exactly
the one matching row. -/
theorem find_key_some (p : TicketRow → Bool) (tid : String)
    (hkey : ∀ u, p u = true → u.id = tid) :
    ∀ l : List TicketRow, (l.map TicketRow.id).Nodup →
      ∀ t, t ∈ l → p t = true → l.find? p = some t := by
  intro l
  induction l with
  | nil =>
    intro _ t ht
    cases ht
  | cons a rest ih =>
    intro hnd t ht hpt
    rw [List.map_cons, List.nodup_cons] at hnd
    obtain ⟨hna, hndr⟩ := hnd
    rcases List.mem_cons.mp ht with rfl | htr
    · simp [List.find?_cons, hpt]
    · have hpa : p a = false := by
        cases hpaeq : p a
        · rfl
        · exfalso
          apply hna
          rw [hkey a hpaeq, ← hkey t hpt]
          exact List.mem_map_of_mem TicketRow.id htr
      simp [List.find?_cons, hpa, ih hndr t htr hpt]

/-- A conditional row update that matches nothing leaves the table
unchanged. -/
theorem map_if_eq_self {α : Type} (l : List α) (p : α → Bool) (f : α → α)
    (h : ∀ t ∈ l, p t = false) :
    (l.map fun t => if p t = true then f t else t) = l := by
  conv_rhs => rw [← List.map_id l]
  refine List.map_congr_left fun t ht => ?_
  simp [h t ht]

/-- The conditional update never changes the stored token of any row. -/
theorem condUpdate_map_id (db : DB) (tid : String) (eid kid now : Nat) :
    (condUpdate db tid eid kid now).1.tickets.map TicketRow.id =
      db.tickets.map TicketRow.id := by
  simp only [condUpdate, List.map_map]
  refine List.map_congr_left fun t ht => ?_
  by_cases hc : condUpdateMatches db tid eid t = true <;> simp [hc]

/-- The conditional update touches only the tickets table. -/
theorem condUpdate_types_events (db : DB) (tid : String) (eid kid now : Nat) :
    (condUpdate db tid eid kid now).1.ticketTypes = db.ticketTypes ∧
      (condUpdate db tid eid kid now).1.events = db.events :=
  ⟨rfl, rfl⟩

/-- Redeeming an unused in-scope ticket: the conditional update hits
exactly that row, the response is VALID, and the stored row is the
stamped one. -/
theorem redeem_unused_result (db : DB) (tid : String) (eid kid now : Nat)
    (hnd : (db.tickets.map TicketRow.id).Nodup) (t : TicketRow) (ht : t ∈ db.tickets)
    (hid : t.id = tid) (hunused : t.used = false)
    (hscope : typeInEvent db t.ticketTypeId eid = true) :
    redeem db tid eid kid now =
      (RedeemStatus.valid (loadTicketRow (condUpdate db tid eid kid now).1 tid eid),
        (condUpdate db tid eid kid now).1) ∧
    findTicket (condUpdate db tid eid kid now).1 tid =
      some { t with used := true, usedAt := some now, usedByScannerKeyId := some kid } ∧
    { t with used := true, usedAt := some now, usedByScannerKeyId := some kid } ∈
      (condUpdate db tid eid kid now).1.tickets := by
  have hpt : condUpdateMatches db tid eid t = true := by
    simp [condUpdateMatches, hid, hunused, hscope]
  have hfilter : db.tickets.filter (condUpdateMatches db tid eid) = [t] :=
    filter_key_singleton _ tid (condUpdateMatches_id db tid eid) db.tickets hnd t ht hpt
  have hcount : (condUpdate db tid eid kid now).2 = 1 := by
    simp only [condUpdate, hfilter, List.length_cons, List.length_nil]
  have hfind : findTicket (condUpdate db tid eid kid now).1 tid =
      some { t with used := true, usedAt := some now, usedByScannerKeyId := some kid } := by
    unfold findTicket
    show ((db.tickets.map fun u => if condUpdateMatches db tid eid u = true then
      { u with used := true, usedAt := some now, usedByScannerKeyId := some kid }
      else u).find? fun u => u.id == tid) = _
    rw [List.find?_map]
    have hcomp : ((fun u : TicketRow => u.id == tid) ∘ fun u =>
        if condUpdateMatches db tid eid u = true then
          { u with used := true, usedAt := some now, usedByScannerKeyId := some kid }
        else u) = fun u : TicketRow => u.id == tid := by
      funext u
      by_cases hc : condUpdateMatches db tid eid u = true <;> simp [hc]
    rw [hcomp, find_key_some _ tid (fun u hu => by simpa using hu) db.tickets hnd t ht
      (by simpa using hid)]
    simp [hpt]
  refine ⟨?_, hfind, ?_⟩
  · unfold redeem
    simp [hcount]
  · have : ({ t with used := true, usedAt := some now, usedByScannerKeyId := some kid }) =
        (fun u => if condUpdateMatches db tid eid u = true then
          { u with used := true, usedAt := some now, usedByScannerKeyId := some kid }
        else u) t := by
      simp [hpt]
    rw [this]
    exact List.mem_map_of_mem _ ht

/-- Redeeming an already-used in-scope ticket: zero rows update, the
store is unchanged, and the enrichment read reports the used row. -/
theorem redeem_used_result (db : DB) (tid : String) (eid kid now : Nat)
    (hnd : (db.tickets.map TicketRow.id).Nodup) (t : TicketRow) (ht : t ∈ db.tickets)
    (hid : t.id = tid) (hused : t.used = true)
    (hscope : typeInEvent db t.ticketTypeId eid = true) (hevent : eid ∈ db.events) :
    redeem db tid eid kid now = (RedeemStatus.alreadyUsed t, db) := by
  have hall : ∀ u ∈ db.tickets, condUpdateMatches db tid eid u = false := by
    intro u hu
    cases hc : condUpdateMatches db tid eid u
    · rfl
    · exfalso
      have huid : u.id = tid := condUpdateMatches_id db tid eid u hc
      have : t = u := mem_id_unique db.tickets hnd t u ht hu (by rw [hid, huid])
      subst this
      simp [condUpdateMatches, hused] at hc

  have hcount : (condUpdate db tid eid kid now).2 = 0 := by
    simp only [condUpdate]
    rw [List.length_eq_zero, List.filter_eq_nil_iff]
    intro u hu
    simp [hall u hu]
  have hdb1 : (condUpdate db tid eid kid now).1 = db := by
    simp only [condUpdate]
    rw [map_if_eq_self db.tickets _ _ hall]
  have hpt : (fun u : TicketRow => u.id == tid && typeInEvent db u.ticketTypeId eid &&
      db.events.any fun e => db.ticketTypes.any fun tt =>
        tt.id == u.ticketTypeId && tt.eventId == e && e == eid) t = true := by
    obtain ⟨tt, htt, httm⟩ := List.any_eq_true.mp hscope
    simp only [Bool.and_eq_true, beq_iff_eq] at httm
    simp only [Bool.and_eq_true, beq_iff_eq, List.any_eq_true]
    exact ⟨⟨hid, hscope⟩, eid, hevent, tt, htt, by simp [httm]⟩
  have hload : loadTicketRow db tid eid = some t := by
    unfold loadTicketRow
    exact find_key_some _ tid (fun u hu => by
        simp only [Bool.and_eq_true, beq_iff_eq] at hu
        exact hu.1.1) db.tickets hnd t ht hpt
  unfold redeem
  simp [hcount, hdb1, hload]

/-- Redeeming a token with no row in the key's event scope: zero rows
update, the store is unchanged, and the scoped read finds nothing. -/
theorem redeem_out_of_scope_result (db : DB) (tid : String) (eid kid now : Nat)
    (hall : ∀ u ∈ db.tickets, u.id = tid →
      typeInEvent db u.ticketTypeId eid = false) :
    redeem db tid eid kid now = (RedeemStatus.notFound, db) := by
  have hallm : ∀ u ∈ db.tickets, condUpdateMatches db tid eid u = false := by
    intro u hu
    cases hc : condUpdateMatches db tid eid u
    · rfl
    · exfalso
      have huid : u.id = tid := condUpdateMatches_id db tid eid u hc
      simp only [condUpdateMatches, Bool.and_eq_true] at hc
      rw [hall u hu huid] at hc
      exact Bool.false_ne_true hc.2
  have hcount : (condUpdate db tid eid kid now).2 = 0 := by
    simp only [condUpdate]
    rw [List.length_eq_zero, List.filter_eq_nil_iff]
    intro u hu
    simp [hallm u hu]
  have hdb1 : (condUpdate db tid eid kid now).1 = db := by
    simp only [condUpdate]
    rw [map_if_eq_self db.tickets _ _ hallm]
  have hload : loadTicketRow db tid eid = none := by
    unfold loadTicketRow
    rw [List.find?_eq_none]
    intro u hu hcon
    simp only [Bool.and_eq_true, beq_iff_eq] at hcon
    rw [hall u hu hcon.1.1] at hcon
    exact Bool.false_ne_true hcon.1.2
  unfold redeem
  simp [hcount, hdb1, hload]

/-- C1: against an authorized scanner key's scope, redeem on an
existing unused in-scope token answers VALID and stamps the row with
`used = true`, `used_at` and `used_by_key_id`; on an in-scope but
already-used token it answers ALREADY_USED and leaves the store
untouched; when no row with the token lies in the key's scope — the
token does not exist, or its type belongs to a different event — it
answers NOT_FOUND and leaves the store untouched, the enrichment
re-read after a zero-row update never mutating state. -/
theorem claim_C1_redeem_cases (db : DB) (tid : String) (eid kid now : Nat)
    (hnd : (db.tickets.map TicketRow.id).Nodup) :
    (∀ t ∈ db.tickets, t.id = tid → t.used = false →
      typeInEvent db t.ticketTypeId eid = true →
      isValidStatus (redeem db tid eid kid now).1 = true ∧
      findTicket (redeem db tid eid kid now).2 tid =
        some { t with used := true, usedAt := some now, usedByScannerKeyId := some kid }) ∧
    (∀ t ∈ db.tickets, t.id = tid → t.used = true →
      typeInEvent db t.ticketTypeId eid = true → eid ∈ db.events →
      (redeem db tid eid kid now).1 = RedeemStatus.alreadyUsed t ∧
      (redeem db tid eid kid now).2 = db) ∧
    ((∀ t ∈ db.tickets, t.id = tid → typeInEvent db t.ticketTypeId eid = false) →
      (redeem db tid eid kid now).1 = RedeemStatus.notFound ∧
      (redeem db tid eid kid now).2 = db) := by
  refine ⟨?_, ?_, ?_⟩
  · intro t ht hid hunused hscope
    obtain ⟨hredeem, hfind, _⟩ :=
      redeem_unused_result db tid eid kid now hnd t ht hid hunused hscope
    rw [hredeem]
    exact ⟨rfl, hfind⟩
  · intro t ht hid hused hscope hevent
    rw [redeem_used_result db tid eid kid now hnd t ht hid hused hscope hevent]
    exact ⟨rfl, rfl⟩
  · intro hall
    rw [redeem_out_of_scope_result db tid eid kid now hall]
    exact ⟨rfl, rfl⟩

/-- Witness for C1: the three outcomes on the concrete fresh store —
redeem in scope, redeem after use, and redeem under the other event's
scope. -/
theorem claim_C1_redeem_cases_witness :
    isValidStatus (redeem freshDB tok1 1 7 100).1 = true ∧
    (redeem usedDB tok1 1 9 200).1 = RedeemStatus.alreadyUsed usedTicket ∧
    (redeem freshDB tok1 2 7 100).1 = RedeemStatus.notFound :=
  ⟨((claim_C1_redeem_cases freshDB tok1 1 7 100 (by decide)).1 freshTicket (by decide)
      (by decide) (by decide) (by decide)).1,
   ((claim_C1_redeem_cases usedDB tok1 1 9 200 (by decide)).2.1 usedTicket (by decide)
      (by decide) (by decide) (by decide) (by decide)).1,
   ((claim_C1_redeem_cases freshDB tok1 2 7 100 (by decide)).2.2 (by decide)).1⟩

/-- Once the ticket is used, every further racing call answers
ALREADY_USED and leaves the store unchanged. -/
theorem runRace_used (tid : String) (eid : Nat) :
    ∀ (rest : List RaceCall) (db' : DB) (t' : TicketRow),
      (db'.tickets.map TicketRow.id).Nodup → t' ∈ db'.tickets → t'.id = tid →
      t'.used = true → typeInEvent db' t'.ticketTypeId eid = true → eid ∈ db'.events →
      runRace tid eid db' rest =
        (rest.map fun _ => RedeemStatus.alreadyUsed t', db') := by
  intro rest
  induction rest with
  | nil =>
    intro db' t' _ _ _ _ _ _
    rfl
  | cons c rest' ih =>
    intro db' t' hnd ht' hid hused hscope hevent
    have hred := redeem_used_result db' tid eid c.keyId c.time hnd t' ht' hid hused
      hscope hevent
    simp only [runRace, hred]
    rw [ih db' t' hnd ht' hid hused hscope hevent]
    simp

/-- C2: when racing redeem calls hit the same unused in-scope ticket,
in any serialization order of their atomic conditional updates (which
is what the store's row-level atomicity yields — no application-level
locking exists), exactly one call answers VALID, every other racing
call answers ALREADY_USED, and the ticket ends used with `used_at` and
`used_by_key_id` stamped by the single winning call. -/
theorem claim_C2_exactly_once (db : DB) (tid : String) (eid : Nat)
    (c : RaceCall) (rest : List RaceCall)
    (hnd : (db.tickets.map TicketRow.id).Nodup)
    (t : TicketRow) (ht : t ∈ db.tickets) (hid : t.id = tid) (hunused : t.used = false)
    (hscope : typeInEvent db t.ticketTypeId eid = true) (hevent : eid ∈ db.events) :
    ((runRace tid eid db (c :: rest)).1.filter isValidStatus).length = 1 ∧
    (∀ s ∈ (runRace tid eid db (c :: rest)).1, isValidStatus s = false →
      isAlreadyUsedStatus s = true) ∧
    findTicket (runRace tid eid db (c :: rest)).2 tid =
      some { t with
        used := true, usedAt := some c.time, usedByScannerKeyId := some c.keyId } := by
  obtain ⟨hredeem, hfind, hmem⟩ :=
    redeem_unused_result db tid eid c.keyId c.time hnd t ht hid hunused hscope
  have hnd' : ((condUpdate db tid eid c.keyId c.time).1.tickets.map TicketRow.id).Nodup := by
    rw [condUpdate_map_id]
    exact hnd
  have hrest := runRace_used tid eid rest (condUpdate db tid eid c.keyId c.time).1
    { t with used := true, usedAt := some c.time, usedByScannerKeyId := some c.keyId }
    hnd' hmem hid rfl hscope hevent
  have hrun : runRace tid eid db (c :: rest) =
      (RedeemStatus.valid
          (loadTicketRow (condUpdate db tid eid c.keyId c.time).1 tid eid) ::
        (rest.map fun _ => RedeemStatus.alreadyUsed
          { t with
            used := true, usedAt := some c.time,
            usedByScannerKeyId := some c.keyId }),
        (condUpdate db tid eid c.keyId c.time).1) := by
    simp only [runRace, hredeem, hrest]
  rw [hrun]
  refine ⟨?_, ?_, hfind⟩
  · have hmapnil : ((rest.map fun _ => RedeemStatus.alreadyUsed
        { t with
          used := true, usedAt := some c.time,
          usedByScannerKeyId := some c.keyId }).filter isValidStatus) = [] := by
      refine List.filter_eq_nil_iff.mpr fun s hs => ?_
      obtain ⟨_, _, rfl⟩ := List.mem_map.mp hs
      simp [isValidStatus]
    simp [List.filter_cons, isValidStatus, hmapnil]
  · intro s hs hnv
    rcases List.mem_cons.mp hs with rfl | hs'
    · simp [isValidStatus] at hnv
    · obtain ⟨_, _, rfl⟩ := List.mem_map.mp hs'
      simp [isAlreadyUsedStatus]

/-- Witness for C2: a three-way race on the fresh sample store — one
VALID, two ALREADY_USED, stamp from the first call. -/
theorem claim_C2_exactly_once_witness :
    ((runRace tok1 1 freshDB [⟨7, 100⟩, ⟨8, 200⟩, ⟨9, 300⟩]).1.filter
      isValidStatus).length = 1 ∧
    findTicket (runRace tok1 1 freshDB [⟨7, 100⟩, ⟨8, 200⟩, ⟨9, 300⟩]).2 tok1 =
      some { freshTicket with
        used := true, usedAt := some 100, usedByScannerKeyId := some 7 } := by
  have h := claim_C2_exactly_once freshDB tok1 1 ⟨7, 100⟩ [⟨8, 200⟩, ⟨9, 300⟩]
    (by decide) freshTicket (by decide) (by decide) (by decide) (by decide) (by decide)
  exact ⟨h.1, h.2.2⟩

/-- When every issuance call succeeds, the send loop appends exactly
one ok record per row, carrying the row's email, and makes one call
sequence per row. -/
theorem issueLoop_records (outcome : Nat → IssueOutcome)
    (hsucc : ∀ i, ∃ tid u, outcome i = IssueOutcome.success tid u) :
    ∀ (l : List PipelineRow) (i : Nat),
      (issueLoop outcome i l).1.map (fun r => (r.ok, r.email)) =
        l.map (fun r => (true, r.email)) ∧
      (issueLoop outcome i l).2 = l.length := by
  intro l
  induction l with
  | nil => intro i; exact ⟨rfl, rfl⟩
  | cons r rest ih =>
    intro i
    obtain ⟨tid, u, hout⟩ := hsucc i
    obtain ⟨ihmap, ihcount⟩ := ih (i + 1)
    simp only [issueLoop, hout, List.map_cons, List.length_cons]
    exact ⟨by rw [ihmap], by rw [ihcount]⟩

/-- Reading the sent-set distributes over ledger concatenation. -/
theorem readJsonlSet_append (L1 L2 : List LedgerRecord) :
    readJsonlSet (L1 ++ L2) = readJsonlSet L1 ++ readJsonlSet L2 := by
  simp [readJsonlSet, List.filter_append]

/-- Email-deduplication only returns rows of its input. -/
theorem dedupeByEmailAux_subset :
    ∀ (l : List PipelineRow) (seen : List String) (r : PipelineRow),
      r ∈ dedupeByEmailAux seen l → r ∈ l := by
  intro l
  induction l with
  | nil =>
    intro seen r h
    simp [dedupeByEmailAux] at h
  | cons x rest ih =>
    intro seen r h
    by_cases hx : x.email ∈ seen
    · rw [show dedupeByEmailAux seen (x :: rest) = dedupeByEmailAux seen rest from by
        simp [dedupeByEmailAux, hx]] at h
      exact List.mem_cons_of_mem x (ih seen r h)
    · rw [show dedupeByEmailAux seen (x :: rest) =
          x :: dedupeByEmailAux (x.email :: seen) rest from by
        simp [dedupeByEmailAux, hx]] at h
      rcases List.mem_cons.mp h with rfl | h'
      · exact List.mem_cons_self r rest
      · exact List.mem_cons_of_mem x (ih (x.email :: seen) r h')

/-- C3: running the bulk pipeline (no `--max` cap) with every issuance
call succeeding makes exactly one call per pending eligible recipient
and appends that many ok records; a second run over the same source
rows against the grown ledger filters every recipient out and performs
zero issuance calls, whatever its call outcomes would be. -/
theorem claim_C3_pipeline_idempotent (rows : List PipelineRow) (L0 : List LedgerRecord)
    (outcome1 outcome2 : Nat → IssueOutcome)
    (hnorm : ∀ r ∈ rows, normalizeEmail r.email = r.email)
    (hne : ∀ r ∈ rows, r.email ≠ "")
    (hsucc : ∀ i, ∃ tid u, outcome1 i = IssueOutcome.success tid u) :
    (runPipeline rows L0 0 outcome1).2 = (pendingRows rows L0).length ∧
    (runPipeline rows L0 0 outcome1).1.length = (pendingRows rows L0).length ∧
    (∀ r ∈ (runPipeline rows L0 0 outcome1).1, r.ok = true) ∧
    runPipeline rows (L0 ++ (runPipeline rows L0 0 outcome1).1) 0 outcome2 =
      ([], 0) := by
  have hrp1 : runPipeline rows L0 0 outcome1 =
      issueLoop outcome1 1 (pendingRows rows L0) := by
    simp [runPipeline]
  obtain ⟨hmap, hcount⟩ := issueLoop_records outcome1 hsucc (pendingRows rows L0) 1
  have hlen : (issueLoop outcome1 1 (pendingRows rows L0)).1.length =
      (pendingRows rows L0).length := by
    have := congrArg List.length hmap
    simpa using this
  have hok : ∀ r ∈ (issueLoop outcome1 1 (pendingRows rows L0)).1, r.ok = true := by
    intro r hr
    have : (r.ok, r.email) ∈ (issueLoop outcome1 1 (pendingRows rows L0)).1.map
        fun r => (r.ok, r.email) := List.mem_map_of_mem _ hr
    rw [hmap] at this
    obtain ⟨x, _, hx⟩ := List.mem_map.mp this
    exact (Prod.mk.injEq _ _ _ _ ▸ hx).1.symm ▸ rfl
  have hpend2 : pendingRows rows
      (L0 ++ (issueLoop outcome1 1 (pendingRows rows L0)).1) = [] := by
    refine List.filter_eq_nil_iff.mpr fun r hr => ?_
    have hrrows : r ∈ rows := dedupeByEmailAux_subset rows [] r hr
    have hrnorm := hnorm r hrrows
    have hrne := hne r hrrows
    rw [readJsonlSet_append]
    by_cases hic : r.email ∈ readJsonlSet L0
    · have hc : (readJsonlSet L0 ++
          readJsonlSet (issueLoop outcome1 1 (pendingRows rows L0)).1).contains
            r.email = true :=
        List.elem_iff.mpr (List.mem_append_left _ hic)
      intro hgoal
      rw [hc] at hgoal
      simp at hgoal
    · have hrpend : r ∈ pendingRows rows L0 := by
        refine List.mem_filter.mpr ⟨hr, ?_⟩
        have hcon : (readJsonlSet L0).contains r.email = false := by
          cases hcon2 : (readJsonlSet L0).contains r.email
          · rfl
          · exact absurd (List.elem_iff.mp hcon2) hic
        simpa using hic
      have hpair : (true, r.email) ∈ (pendingRows rows L0).map
          fun r => (true, r.email) := List.mem_map_of_mem _ hrpend
      rw [← hmap] at hpair
      obtain ⟨rec, hrec, hreceq⟩ := List.mem_map.mp hpair
      have hrecok : rec.ok = true := (Prod.mk.injEq _ _ _ _ ▸ hreceq).1
      have hrecem : rec.email = r.email := (Prod.mk.injEq _ _ _ _ ▸ hreceq).2
      have hmemsent : r.email ∈ readJsonlSet
          (issueLoop outcome1 1 (pendingRows rows L0)).1 := by
        unfold readJsonlSet
        refine List.mem_map.mpr ⟨rec, List.mem_filter.mpr ⟨hrec, ?_⟩, ?_⟩
        · simp [hrecok, hrecem, hrne]
        · rw [hrecem, hrnorm]
      have hc : (readJsonlSet L0 ++
          readJsonlSet (issueLoop outcome1 1 (pendingRows rows L0)).1).contains
            r.email = true :=
        List.elem_iff.mpr (List.mem_append_right _ hmemsent)
      intro hgoal
      rw [hc] at hgoal
      simp at hgoal
  refine ⟨?_, ?_, ?_, ?_⟩
  · rw [hrp1, hcount]
  · rw [hrp1, hlen]
  · rw [hrp1]
    exact hok
  · rw [hrp1]
    show runPipeline rows (L0 ++ (issueLoop outcome1 1 (pendingRows rows L0)).1)
      0 outcome2 = ([], 0)
    simp [runPipeline, hpend2]
    rfl

/-- Witness for C3: two eligible rows (one duplicated), empty initial
ledger, all-success outcomes — first run makes two calls, second run
makes none. -/
theorem claim_C3_pipeline_idempotent_witness :
    (runPipeline [⟨"a@b.is", none, "Matur + ball", 10⟩, ⟨"a@b.is", none, "Matur + ball", 10⟩,
        ⟨"c@d.is", none, "Bara ball", 20⟩] [] 0 fun _ => IssueOutcome.success "T1" "u").2 =
      (pendingRows [⟨"a@b.is", none, "Matur + ball", 10⟩, ⟨"a@b.is", none, "Matur + ball", 10⟩,
        ⟨"c@d.is", none, "Bara ball", 20⟩] []).length ∧
    runPipeline [⟨"a@b.is", none, "Matur + ball", 10⟩, ⟨"a@b.is", none, "Matur + ball", 10⟩,
        ⟨"c@d.is", none, "Bara ball", 20⟩]
      ([] ++ (runPipeline [⟨"a@b.is", none, "Matur + ball", 10⟩,
        ⟨"a@b.is", none, "Matur + ball", 10⟩, ⟨"c@d.is", none, "Bara ball", 20⟩] [] 0
          fun _ => IssueOutcome.success "T1" "u").1)
      0 (fun _ => IssueOutcome.failure 500 "down") = ([], 0) := by
  have h := claim_C3_pipeline_idempotent
    [⟨"a@b.is", none, "Matur + ball", 10⟩, ⟨"a@b.is", none, "Matur + ball", 10⟩,
      ⟨"c@d.is", none, "Bara ball", 20⟩] []
    (fun _ => IssueOutcome.success "T1" "u") (fun _ => IssueOutcome.failure 500 "down")
    (by decide) (by decide) (fun i => ⟨"T1", "u", rfl⟩)
  exact ⟨h.1, h.2.2.2⟩

end Tickets
